import Mathlib

/-!
Verification of the agritracer data-fetch synchronization scripts.

The development shallowly embeds the two Python modules of the repository:

* `main.py`   — harvest-record sync (REST API → SQL Server `harvests` table),
  embedded in namespace `main`;
* `get_tvn.py` — daily-totals sync (Supabase → SQL Server `tracefruit_harvest`
  table), embedded in namespace `get_tvn`.

Dictionaries become association lists, the MERGE statement becomes a pure
list transformation, the per-call database transaction becomes explicit
commit/rollback state passing, and `datetime.strptime`/`strftime` become
executable string functions mirroring CPython's `_strptime` regular
expressions and the `datetime` constructor's range validation.
-/

/-- A JSON-ish field value carried by a source row.  The scripts never
compute with numeric payloads (they are passed straight through to the SQL
parameters), so a numeric payload is kept opaque as an integer-coded value. -/
inductive Value where
  | vstr (s : String)
  | vnum (n : Int)
deriving DecidableEq, Repr

/-- A raw source row: a Python dict, embedded as an association list from
field name to value (first binding wins, as for dict lookup). -/
def RawRecord := List (String × Value)

instance : DecidableEq RawRecord := by
  unfold RawRecord
  infer_instance

instance : Repr RawRecord := by
  unfold RawRecord
  infer_instance

instance {ε α : Type} [DecidableEq ε] [DecidableEq α] : DecidableEq (Except ε α)
  | .ok a, .ok b =>
      if h : a = b then .isTrue (by rw [h])
      else .isFalse (fun he => h (Except.ok.inj he))
  | .ok _, .error _ => .isFalse (fun h => Except.noConfusion h)
  | .error _, .ok _ => .isFalse (fun h => Except.noConfusion h)
  | .error e, .error f =>
      if h : e = f then .isTrue (by rw [h])
      else .isFalse (fun he => h (Except.error.inj he))

/-- `record[k]` as a total lookup: `none` models a raised `KeyError`. -/
def lookupField (r : RawRecord) (k : String) : Option Value :=
  (r.find? (fun p => p.1 = k)).map (fun p => p.2)

/-! ### `datetime.strptime` / `strftime`

CPython's `_strptime` compiles a format into a regular expression whose
numeric directives are ordered alternations (two-digit form first, then the
one-digit form), anchored at the start of the string and required to consume
the whole input; whitespace in the format matches one or more whitespace
characters.  A successful regex match is then passed to the `datetime`
constructor, which validates every component range.  The functions below
mirror that pipeline for the two formats the scripts use,
`%Y-%m-%d %H:%M:%S` and `%H:%M`. -/

/-- `\d` of the strptime regexes. -/
def isDigitCh (c : Char) : Bool := '0' ≤ c && c ≤ '9'

/-- Numeric value of a digit character. -/
def digitVal (c : Char) : Nat := c.toNat - '0'.toNat

/-- `\s` of the strptime regexes (Python whitespace class). -/
def isSpaceCh (c : Char) : Bool :=
  c = ' ' || c = '\t' || c = '\n' || c = '\r' || c = '\x0b' || c = '\x0c'

/-- An ordered two-alternative numeric directive with regex backtracking:
try the two-character alternative `p2` and continue with `k`; if either
fails, fall back to the one-character alternative `p1`. -/
def alt21 {α : Type} (p2 : Char → Char → Option Nat) (p1 : Char → Option Nat)
    (k : Nat → List Char → Option α) : List Char → Option α
  | a :: b :: rest =>
      (match p2 a b with
       | some v => k v rest
       | none => none).orElse
      (fun _ => match p1 a with
       | some v => k v (b :: rest)
       | none => none)
  | [a] =>
      match p1 a with
      | some v => k v []
      | none => none
  | [] => none

/-- `%Y`: exactly four digits. -/
def parseY {α : Type} (k : Nat → List Char → Option α) : List Char → Option α
  | a :: b :: c :: d :: rest =>
      if isDigitCh a && isDigitCh b && isDigitCh c && isDigitCh d then
        k (digitVal a * 1000 + digitVal b * 100 + digitVal c * 10 + digitVal d) rest
      else none
  | _ => none

/-- `%m` two-digit alternatives `1[0-2]|0[1-9]`. -/
def mPat2 (a b : Char) : Option Nat :=
  if a = '1' && '0' ≤ b && b ≤ '2' then some (10 + digitVal b)
  else if a = '0' && '1' ≤ b && b ≤ '9' then some (digitVal b)
  else none

/-- `%m` one-digit alternative `[1-9]`. -/
def mPat1 (a : Char) : Option Nat :=
  if '1' ≤ a && a ≤ '9' then some (digitVal a) else none

/-- `%d` two-digit alternatives `3[01]|[12]\d|0[1-9]`. -/
def dPat2 (a b : Char) : Option Nat :=
  if a = '3' && ('0' ≤ b && b ≤ '1') then some (30 + digitVal b)
  else if ('1' ≤ a && a ≤ '2') && isDigitCh b then some (digitVal a * 10 + digitVal b)
  else if a = '0' && '1' ≤ b && b ≤ '9' then some (digitVal b)
  else none

/-- `%d` one-digit alternative `[1-9]`. -/
def dPat1 (a : Char) : Option Nat :=
  if '1' ≤ a && a ≤ '9' then some (digitVal a) else none

/-- `%H` two-digit alternatives `2[0-3]|[0-1]\d`. -/
def hPat2 (a b : Char) : Option Nat :=
  if a = '2' && ('0' ≤ b && b ≤ '3') then some (20 + digitVal b)
  else if ('0' ≤ a && a ≤ '1') && isDigitCh b then some (digitVal a * 10 + digitVal b)
  else none

/-- `%H`, `%M`, `%S` one-digit alternative `\d`. -/
def digPat1 (a : Char) : Option Nat :=
  if isDigitCh a then some (digitVal a) else none

/-- `%M` two-digit alternative `[0-5]\d`. -/
def minPat2 (a b : Char) : Option Nat :=
  if ('0' ≤ a && a ≤ '5') && isDigitCh b then some (digitVal a * 10 + digitVal b)
  else none

/-- `%S` two-digit alternatives `6[0-1]|[0-5]\d` (leap seconds pass the regex
and are rejected later by the `datetime` constructor). -/
def sPat2 (a b : Char) : Option Nat :=
  if a = '6' && ('0' ≤ b && b ≤ '1') then some (60 + digitVal b)
  else if ('0' ≤ a && a ≤ '5') && isDigitCh b then some (digitVal a * 10 + digitVal b)
  else none

/-- A literal separator character of the format. -/
def litCh {α : Type} (c : Char) (k : List Char → Option α) : List Char → Option α
  | a :: rest => if a = c then k rest else none
  | [] => none

/-- `\s+`: whitespace in a strptime format matches one or more whitespace
characters (greedy; no backtracking is needed because every following
directive starts with a digit). -/
def spaces1 {α : Type} (k : List Char → Option α) : List Char → Option α
  | a :: rest =>
      if isSpaceCh a then
        match rest with
        | b :: _ => if isSpaceCh b then spaces1 k rest else k rest
        | [] => k []
      else none
  | [] => none

/-- The regex phase of `strptime(s, "%Y-%m-%d %H:%M:%S")`: a full
anchored match yielding the six numeric components. -/
def matchDateTime (cs : List Char) : Option (Nat × Nat × Nat × Nat × Nat × Nat) :=
  parseY (fun y =>
    litCh '-' (alt21 mPat2 mPat1 (fun mo =>
      litCh '-' (alt21 dPat2 dPat1 (fun d =>
        spaces1 (alt21 hPat2 digPat1 (fun h =>
          litCh ':' (alt21 minPat2 digPat1 (fun mi =>
            litCh ':' (alt21 sPat2 digPat1 (fun se => fun rest =>
              if rest.isEmpty then some (y, mo, d, h, mi, se) else none)))))))))))
    cs

/-- The regex phase of `strptime(s, "%H:%M")`. -/
def matchHM (cs : List Char) : Option (Nat × Nat) :=
  alt21 hPat2 digPat1 (fun h =>
    litCh ':' (alt21 minPat2 digPat1 (fun mi => fun rest =>
      if rest.isEmpty then some (h, mi) else none)))
    cs

/-- Gregorian leap-year rule used by `datetime`. -/
def isLeap (y : Nat) : Bool := y % 4 = 0 && (y % 100 ≠ 0 || y % 400 = 0)

/-- Days in a month, as validated by the `datetime` constructor. -/
def daysInMonth (y m : Nat) : Nat :=
  if m = 2 then (if isLeap y then 29 else 28)
  else if m = 4 || m = 6 || m = 9 || m = 11 then 30
  else 31

/-- The `datetime(...)` constructor's range validation. -/
def dtValid (y mo d h mi se : Nat) : Bool :=
  1 ≤ y && y ≤ 9999 && 1 ≤ mo && mo ≤ 12 && 1 ≤ d && d ≤ daysInMonth y mo &&
    h ≤ 23 && mi ≤ 59 && se ≤ 59

/-- `datetime.strptime(s, "%Y-%m-%d %H:%M:%S")`: `none` models a raised
`ValueError` (regex mismatch, unconverted trailing data, or an
out-of-range component rejected by the constructor). -/
def strptimeDateTime (s : String) : Option (Nat × Nat × Nat × Nat × Nat × Nat) :=
  (matchDateTime s.toList).bind (fun c =>
    if dtValid c.1 c.2.1 c.2.2.1 c.2.2.2.1 c.2.2.2.2.1 c.2.2.2.2.2 then some c else none)

/-- `datetime.strptime(s, "%H:%M")` (the constructor's hour/minute checks
are implied by the regex but re-applied, as `datetime` does). -/
def strptimeHM (s : String) : Option (Nat × Nat) :=
  (matchHM s.toList).bind (fun c =>
    if c.1 ≤ 23 && c.2 ≤ 59 then some c else none)

/-- Two-digit zero padding of `strftime`'s `%m`, `%d`, `%H`, `%M`, `%S`. -/
def pad2 (n : Nat) : String := if n < 10 then "0" ++ toString n else toString n

/-- `strftime("%Y-%m-%d %H:%M:%S")` on the parsed components (`%Y` prints
the year unpadded, as the platform C library does). -/
def fmtDateTime (y mo d h mi se : Nat) : String :=
  toString y ++ "-" ++ pad2 mo ++ "-" ++ pad2 d ++ " " ++ pad2 h ++ ":" ++
    pad2 mi ++ ":" ++ pad2 se

/-- `strftime("%H:%M:%S")` on a time parsed from `%H:%M`: seconds are 00. -/
def fmtHMS (h mi : Nat) : String :=
  pad2 h ++ ":" ++ pad2 mi ++ ":00"

/-! ### Harvest-record normalization (`main.py`, `insert_data` lines 126–144)

Per record, the loop body converts `harvest_date`, `start_time` and
`end_time` with `strptime`/`strftime` and then builds the 12-element SQL
parameter tuple.  A missing dict key raises `KeyError`; a malformed or
non-string date/time raises from `strptime`.  Both abort the loop body
before `cursor.execute` for that record. -/

/-- A mapping failure for one raw record, carrying the offending field. -/
inductive MapErr where
  | keyError (field : String)
  | parseError (field : String)
deriving DecidableEq, Repr

/-- The canonical harvest row: the 12 SQL parameters of the MERGE statement
in source order. -/
structure HCanon where
  id : Value
  farm : Value
  plot : Value
  produce : Value
  worker : Value
  unit : Value
  harvest_date : String
  start_time : String
  end_time : String
  duration : Value
  containers : Value
  kgs_harvested : Value
deriving DecidableEq, Repr

namespace main

/-- `record[k]`, with `KeyError` as an error value. -/
def getField (r : RawRecord) (k : String) : Except MapErr Value :=
  match lookupField r k with
  | some v => .ok v
  | none => .error (.keyError k)

/-- Line 127: `strptime(record['harvest_date'], '%Y-%m-%d %H:%M:%S')`
followed by `strftime('%Y-%m-%d %H:%M:%S')`.  A non-string value raises
(`TypeError`), a non-matching string raises (`ValueError`). -/
def convDateTime (field : String) (v : Value) : Except MapErr String :=
  match v with
  | .vstr s =>
      match strptimeDateTime s with
      | some c => .ok (fmtDateTime c.1 c.2.1 c.2.2.1 c.2.2.2.1 c.2.2.2.2.1 c.2.2.2.2.2)
      | none => .error (.parseError field)
  | _ => .error (.parseError field)

/-- Lines 128–129: `strptime(·, '%H:%M')` followed by `strftime('%H:%M:%S')`. -/
def convTime (field : String) (v : Value) : Except MapErr String :=
  match v with
  | .vstr s =>
      match strptimeHM s with
      | some c => .ok (fmtHMS c.1 c.2)
      | none => .error (.parseError field)
  | _ => .error (.parseError field)

/-- The per-record mapping stage of `insert_data`'s loop body (`main.py`
lines 126–144): date/time conversions in source order, then the dict
lookups of the parameter tuple in evaluation order.  The first failure
aborts the record. -/
def normalizeRecord (r : RawRecord) : Except MapErr HCanon := do
  let hv ← getField r "harvest_date"
  let hd ← convDateTime "harvest_date" hv
  let sv ← getField r "start_time"
  let st ← convTime "start_time" sv
  let ev ← getField r "end_time"
  let et ← convTime "end_time" ev
  let idv ← getField r "id"
  let farm ← getField r "farm"
  let plot ← getField r "plot"
  let produce ← getField r "produce"
  let worker ← getField r "worker"
  let unit ← getField r "unit"
  let duration ← getField r "duration"
  let containers ← getField r "containers"
  let kgs ← getField r "kgs_harvested"
  pure { id := idv, farm := farm, plot := plot, produce := produce,
         worker := worker, unit := unit, harvest_date := hd,
         start_time := st, end_time := et, duration := duration,
         containers := containers, kgs_harvested := kgs }

/-- A raw record is valid when its three date/time fields are strings
matching their expected formats and the nine remaining required fields are
present. -/
def validRecord (r : RawRecord) : Bool :=
  (match lookupField r "harvest_date" with
   | some (.vstr s) => (strptimeDateTime s).isSome
   | _ => false) &&
  (match lookupField r "start_time" with
   | some (.vstr s) => (strptimeHM s).isSome
   | _ => false) &&
  (match lookupField r "end_time" with
   | some (.vstr s) => (strptimeHM s).isSome
   | _ => false) &&
  (lookupField r "id").isSome &&
  (lookupField r "farm").isSome &&
  (lookupField r "plot").isSome &&
  (lookupField r "produce").isSome &&
  (lookupField r "worker").isSome &&
  (lookupField r "unit").isSome &&
  (lookupField r "duration").isSome &&
  (lookupField r "containers").isSome &&
  (lookupField r "kgs_harvested").isSome

end main

example :
    strptimeDateTime "2024-06-01 08:30:00" = some (2024, 6, 1, 8, 30, 0) := by
  decide

example : strptimeHM "8:05" = some (8, 5) := by decide

example : strptimeHM "24:05" = none := by decide

example : strptimeDateTime "2024-02-30 08:30:00" = none := by decide

/-! ### The MERGE upsert as a list transformation

Each `cursor.execute` of the MERGE statement is one conditional operation on
the destination table: every target row whose key equals the source row's
key is overwritten from the source (`WHEN MATCHED ... UPDATE`), and if no
target row matches, the source row is appended (`WHEN NOT MATCHED ...
INSERT`).  The table is a list of stored rows; both scripts instantiate the
same shape with their own row types and key projections. -/

section UpsertModel

variable {σ ρ κ : Type} [DecidableEq κ]

/-- One MERGE execution: `σ` is the staged source-row shape, `ρ` the stored
destination-row shape, `toRow` the values the statement writes (for the
harvest table this includes the refreshed `GETDATE()` timestamp). -/
def mergeRow (keyR : ρ → κ) (keyS : σ → κ) (toRow : σ → ρ) (tbl : List ρ) (s : σ) :
    List ρ :=
  if tbl.any (fun t => keyR t = keyS s) then
    tbl.map (fun t => if keyR t = keyS s then toRow s else t)
  else tbl ++ [toRow s]

/-- The whole batch of MERGE executions, first row first. -/
def applyBatch (keyR : ρ → κ) (keyS : σ → κ) (toRow : σ → ρ) (tbl : List ρ)
    (b : List σ) : List ρ :=
  b.foldl (mergeRow keyR keyS toRow) tbl

/-- The last source row of the batch carrying a given key, if any. -/
def lastWith (keyS : σ → κ) (b : List σ) (k : κ) : Option σ :=
  (b.filter (fun s => keyS s = k)).getLast?

/-- The net effect of a batch on one pre-existing destination row: it is
overwritten from the last batch row sharing its key, or left alone. -/
def updLast (keyR : ρ → κ) (keyS : σ → κ) (toRow : σ → ρ) (b : List σ) (t : ρ) : ρ :=
  match lastWith keyS b (keyR t) with
  | some s => toRow s
  | none => t

/-- The rows a batch appends: one per key not already `seen`, placed at the
key's first occurrence, valued from the key's last occurrence. -/
def freshRows (keyS : σ → κ) (toRow : σ → ρ) (seen : κ → Bool) : List σ → List ρ
  | [] => []
  | s :: b =>
      if seen (keyS s) then freshRows keyS toRow seen b
      else toRow ((lastWith keyS b (keyS s)).getD s) ::
        freshRows keyS toRow (fun k => decide (k = keyS s) || seen k) b

/-- The keys present in a destination table. -/
def tblSeen (keyR : ρ → κ) (tbl : List ρ) : κ → Bool :=
  fun k => tbl.any (fun t => keyR t = k)

/-- Closed form of a whole batch: overwrite the surviving rows in place and
append the genuinely new ones. -/
def applyOnce (keyR : ρ → κ) (keyS : σ → κ) (toRow : σ → ρ) (tbl : List ρ)
    (b : List σ) : List ρ :=
  tbl.map (updLast keyR keyS toRow b) ++ freshRows keyS toRow (tblSeen keyR tbl) b

end UpsertModel

/-! ### Lemmas about the upsert model -/

section UpsertLemmas

variable {σ ρ κ : Type} [DecidableEq κ]
variable {keyR : ρ → κ} {keyS : σ → κ} {toRow toRow1 toRow2 : σ → ρ}
variable {s : σ} {t : ρ} {k : κ} {b : List σ} {tbl : List ρ} {seen : κ → Bool}

theorem getLast?_cons_getD {α : Type} (a : α) (l : List α) :
    (a :: l).getLast? = some (l.getLast?.getD a) := by
  induction l generalizing a with
  | nil => rfl
  | cons b l ih => rw [show (a :: b :: l).getLast? = (b :: l).getLast? from
      List.getLast?_cons_cons .., ih b]; rfl

theorem lastWith_cons_of_eq (h : keyS s = k) :
    lastWith keyS (s :: b) k = some ((lastWith keyS b k).getD s) := by
  simp [lastWith, List.filter_cons, h, getLast?_cons_getD]

theorem lastWith_cons_of_ne (h : ¬keyS s = k) :
    lastWith keyS (s :: b) k = lastWith keyS b k := by
  simp [lastWith, List.filter_cons, h]

theorem lastWith_eq_some_key (h : lastWith keyS b k = some s) : keyS s = k := by
  unfold lastWith at h
  rcases List.mem_getLast?_eq_getLast h with ⟨hne, rfl⟩
  have := List.mem_filter.mp (List.getLast_mem hne)
  simpa using this.2

theorem lastWith_eq_none (h : ∀ s ∈ b, ¬keyS s = k) : lastWith keyS b k = none := by
  unfold lastWith
  rw [List.filter_eq_nil_iff.mpr (by simpa using h)]
  rfl

theorem lastWith_isSome (h : ∃ s ∈ b, keyS s = k) :
    ∃ v, lastWith keyS b k = some v := by
  rcases h with ⟨s, hs, hk⟩
  have hne : b.filter (fun s => keyS s = k) ≠ [] :=
    List.ne_nil_of_mem (List.mem_filter.mpr ⟨hs, by simpa using hk⟩)
  exact ⟨_, List.getLast?_eq_getLast_of_ne_nil hne⟩

theorem keyS_lastWith_getD :
    keyS ((lastWith keyS b (keyS s)).getD s) = keyS s := by
  cases hl : lastWith keyS b (keyS s) with
  | none => rfl
  | some v => simpa using lastWith_eq_some_key hl

theorem lastWith_append_cons (h : keyS s = k) (pre : List σ) :
    lastWith keyS (pre ++ s :: b) k = lastWith keyS (s :: b) k := by
  unfold lastWith
  rw [List.filter_append]
  apply List.getLast?_append_of_ne_nil
  simp [List.filter_cons, h]

theorem updLast_key (hkey : ∀ s, keyR (toRow s) = keyS s) (b : List σ) (t : ρ) :
    keyR (updLast keyR keyS toRow b t) = keyR t := by
  unfold updLast
  cases h : lastWith keyS b (keyR t) with
  | none => rfl
  | some v => rw [hkey]; exact lastWith_eq_some_key h

theorem updLast_of_not_mem (h : ∀ s ∈ b, ¬keyS s = keyR t) :
    updLast keyR keyS toRow b t = t := by
  unfold updLast
  rw [lastWith_eq_none h]

theorem updLast_cons_of_ne (h : ¬keyS s = keyR t) :
    updLast keyR keyS toRow (s :: b) t = updLast keyR keyS toRow b t := by
  unfold updLast
  rw [lastWith_cons_of_ne h]

theorem updLast_cons_self (h : keyR t = keyS s) :
    updLast keyR keyS toRow (s :: b) t =
      toRow ((lastWith keyS b (keyS s)).getD s) := by
  unfold updLast
  rw [h, lastWith_cons_of_eq rfl]

theorem updLast_apply_toRow (hkey : ∀ s, keyR (toRow s) = keyS s) (b : List σ) (s : σ) :
    updLast keyR keyS toRow b (toRow s) =
      toRow ((lastWith keyS b (keyS s)).getD s) := by
  unfold updLast
  rw [hkey]
  cases h : lastWith keyS b (keyS s) with
  | none => rfl
  | some v => rfl

theorem updLast_updLast (hk1 : ∀ s, keyR (toRow1 s) = keyS s) (b : List σ) (t : ρ) :
    updLast keyR keyS toRow2 b (updLast keyR keyS toRow1 b t) =
      updLast keyR keyS toRow2 b t := by
  unfold updLast
  cases h : lastWith keyS b (keyR t) with
  | none => rw [h]
  | some v =>
      have hv : keyS v = keyR t := lastWith_eq_some_key h
      rw [hk1 v, hv, h]

theorem updLast_step (hkey : ∀ s, keyR (toRow s) = keyS s) (t : ρ) :
    updLast keyR keyS toRow b (if keyR t = keyS s then toRow s else t) =
      updLast keyR keyS toRow (s :: b) t := by
  by_cases hk : keyR t = keyS s
  · rw [if_pos hk, updLast_apply_toRow hkey, updLast_cons_self hk]
  · rw [if_neg hk, updLast_cons_of_ne (fun h => hk h.symm)]

theorem tblSeen_true_of_mem (ht : t ∈ tbl) (h : keyR t = k) :
    tblSeen keyR tbl k = true := by
  simp only [tblSeen, List.any_eq_true, decide_eq_true_eq]
  exact ⟨t, ht, h⟩

theorem applyOnce_mergeRow (hkey : ∀ s, keyR (toRow s) = keyS s) (tbl : List ρ)
    (s : σ) (b : List σ) :
    applyOnce keyR keyS toRow (mergeRow keyR keyS toRow tbl s) b =
      applyOnce keyR keyS toRow tbl (s :: b) := by
  by_cases hmem : ∃ t ∈ tbl, keyR t = keyS s
  · have hany : (tbl.any fun t => keyR t = keyS s) = true := by
      simpa only [List.any_eq_true, decide_eq_true_eq] using hmem
    have hseen : tblSeen keyR tbl (keyS s) = true := hany
    rw [mergeRow, if_pos hany]
    unfold applyOnce
    have hmap : (tbl.map fun t => if keyR t = keyS s then toRow s else t).map
        (updLast keyR keyS toRow b) = tbl.map (updLast keyR keyS toRow (s :: b)) := by
      rw [List.map_map]
      exact List.map_congr_left (fun t _ => updLast_step hkey t)
    have hkeys : tblSeen keyR (tbl.map fun t => if keyR t = keyS s then toRow s else t) =
        tblSeen keyR tbl := by
      funext k
      unfold tblSeen
      rw [List.any_map]
      apply congrArg (List.any tbl)
      funext t
      simp only [Function.comp_apply]
      by_cases hk : keyR t = keyS s
      · rw [if_pos hk, hkey, hk]
      · rw [if_neg hk]
    rw [hmap, hkeys, show freshRows keyS toRow (tblSeen keyR tbl) (s :: b) =
      freshRows keyS toRow (tblSeen keyR tbl) b by rw [freshRows, if_pos hseen]]
  · have hany : (tbl.any fun t => keyR t = keyS s) = false := by
      simpa only [List.any_eq_false, decide_eq_true_eq] using
        fun t ht h => hmem ⟨t, ht, h⟩
    have hseen : tblSeen keyR tbl (keyS s) = false := hany
    rw [mergeRow, if_neg (by simp [hany])]
    unfold applyOnce
    rw [List.map_append]
    have hmap : tbl.map (updLast keyR keyS toRow b) =
        tbl.map (updLast keyR keyS toRow (s :: b)) := by
      apply List.map_congr_left
      intro t ht
      have hk : ¬keyR t = keyS s := fun h => hmem ⟨t, ht, h⟩
      exact (updLast_cons_of_ne (fun h => hk h.symm)).symm
    have hone : [toRow s].map (updLast keyR keyS toRow b) =
        [toRow ((lastWith keyS b (keyS s)).getD s)] := by
      simp only [List.map_cons, List.map_nil]
      rw [updLast_apply_toRow hkey]
    have hkeys : tblSeen keyR (tbl ++ [toRow s]) =
        fun k => decide (k = keyS s) || tblSeen keyR tbl k := by
      funext k
      unfold tblSeen
      rw [List.any_append, Bool.or_comm]
      apply congrArg (· || tbl.any fun t => decide (keyR t = k))
      simp only [List.any_cons, List.any_nil, Bool.or_false, hkey]
      exact decide_eq_decide.mpr eq_comm
    rw [hmap, hone, hkeys, show freshRows keyS toRow (tblSeen keyR tbl) (s :: b) =
      toRow ((lastWith keyS b (keyS s)).getD s) ::
        freshRows keyS toRow (fun k => decide (k = keyS s) || tblSeen keyR tbl k) b
      by rw [freshRows, if_neg (by simp [hseen])]]
    simp [List.append_assoc]

theorem applyBatch_eq_applyOnce (hkey : ∀ s, keyR (toRow s) = keyS s)
    (tbl : List ρ) (b : List σ) :
    applyBatch keyR keyS toRow tbl b = applyOnce keyR keyS toRow tbl b := by
  induction b generalizing tbl with
  | nil =>
      have h : List.map (updLast keyR keyS toRow ([] : List σ)) tbl = tbl := by
        rw [List.map_congr_left
          (fun t _ => show updLast keyR keyS toRow [] t = t from rfl)]
        exact List.map_id tbl
      simp [applyBatch, applyOnce, freshRows, h]
  | cons s b ih =>
      rw [show applyBatch keyR keyS toRow tbl (s :: b) =
        applyBatch keyR keyS toRow (mergeRow keyR keyS toRow tbl s) b from rfl,
        ih, applyOnce_mergeRow hkey]

theorem freshRows_mem (hr : t ∈ freshRows keyS toRow seen b) :
    ∃ v, t = toRow v ∧ seen (keyS v) = false := by
  induction b generalizing seen with
  | nil => simp [freshRows] at hr
  | cons s b ih =>
      by_cases hs : seen (keyS s) = true
      · rw [freshRows, if_pos hs] at hr
        exact ih hr
      · rw [freshRows, if_neg hs] at hr
        rcases List.mem_cons.mp hr with h | h
        · refine ⟨(lastWith keyS b (keyS s)).getD s, h, ?_⟩
          rw [@keyS_lastWith_getD σ κ _ keyS s b]
          exact Bool.eq_false_iff.mpr hs
        · rcases ih h with ⟨v, hv, hsv⟩
          refine ⟨v, hv, ?_⟩
          simpa using (Bool.or_eq_false_iff.mp hsv).2

theorem freshRows_eq_nil (h : ∀ s ∈ b, seen (keyS s) = true) :
    freshRows keyS toRow seen b = [] := by
  induction b generalizing seen with
  | nil => rfl
  | cons s b ih =>
      rw [freshRows, if_pos (h s (List.mem_cons_self s b))]
      exact ih fun s' hs' => h s' (List.mem_cons_of_mem s hs')

theorem freshRows_covers (hkey : ∀ s, keyR (toRow s) = keyS s)
    (hs : s ∈ b) :
    seen (keyS s) = true ∨
      ∃ r ∈ freshRows keyS toRow seen b, keyR r = keyS s := by
  induction b generalizing seen with
  | nil => simp at hs
  | cons s0 b ih =>
      by_cases h0 : seen (keyS s0) = true
      · rw [freshRows, if_pos h0]
        rcases List.mem_cons.mp hs with rfl | hs'
        · exact Or.inl h0
        · exact ih hs'
      · rw [freshRows, if_neg h0]
        rcases List.mem_cons.mp hs with rfl | hs'
        · refine Or.inr ⟨toRow ((lastWith keyS b (keyS s)).getD s),
            List.mem_cons_self .., ?_⟩
          rw [hkey]
          exact @keyS_lastWith_getD σ κ _ keyS s b
        · rcases @ih (fun k => decide (k = keyS s0) || seen k) hs' with
            hseen | ⟨r, hr, hrk⟩
          · rcases Bool.or_eq_true_iff.mp hseen with hd | hseen'
            · refine Or.inr ⟨toRow ((lastWith keyS b (keyS s0)).getD s0),
                List.mem_cons_self .., ?_⟩
              rw [hkey]
              exact (@keyS_lastWith_getD σ κ _ keyS s0 b).trans
                (of_decide_eq_true hd).symm
            · exact Or.inl hseen'
          · exact Or.inr ⟨r, List.mem_cons_of_mem _ hr, hrk⟩

theorem map_updLast_freshRows (hk1 : ∀ s, keyR (toRow1 s) = keyS s) :
    ∀ (b pre : List σ) (seen : κ → Bool),
      (freshRows keyS toRow1 seen b).map (updLast keyR keyS toRow2 (pre ++ b)) =
        freshRows keyS toRow2 seen b
  | [], pre, seen => rfl
  | s :: b, pre, seen => by
      by_cases hs : seen (keyS s) = true
      · rw [freshRows, if_pos hs, freshRows, if_pos hs,
          show pre ++ s :: b = (pre ++ [s]) ++ b by simp]
        exact map_updLast_freshRows hk1 b (pre ++ [s]) seen
      · rw [freshRows, if_neg hs, freshRows, if_neg hs, List.map_cons]
        have hhead : updLast keyR keyS toRow2 (pre ++ s :: b)
            (toRow1 ((lastWith keyS b (keyS s)).getD s)) =
            toRow2 ((lastWith keyS b (keyS s)).getD s) := by
          unfold updLast
          rw [hk1, @keyS_lastWith_getD σ κ _ keyS s b, lastWith_append_cons rfl,
            lastWith_cons_of_eq rfl]
        rw [hhead, show pre ++ s :: b = (pre ++ [s]) ++ b by simp,
          map_updLast_freshRows hk1 b (pre ++ [s])]

theorem applyOnce_applyOnce (hk1 : ∀ s, keyR (toRow1 s) = keyS s)
    (_hk2 : ∀ s, keyR (toRow2 s) = keyS s) (tbl : List ρ) (b : List σ) :
    applyOnce keyR keyS toRow2 (applyOnce keyR keyS toRow1 tbl b) b =
      applyOnce keyR keyS toRow2 tbl b := by
  have hcover : ∀ s ∈ b,
      tblSeen keyR (applyOnce keyR keyS toRow1 tbl b) (keyS s) = true := by
    intro s hs
    by_cases ht : tblSeen keyR tbl (keyS s) = true
    · rcases List.any_eq_true.mp ht with ⟨t, htm, htk⟩
      apply tblSeen_true_of_mem
        (List.mem_append_left _ (List.mem_map_of_mem (updLast keyR keyS toRow1 b) htm))
      rw [updLast_key hk1]
      exact of_decide_eq_true htk
    · rcases @freshRows_covers σ ρ κ _ keyR keyS toRow1 s b (tblSeen keyR tbl)
        hk1 hs with h | ⟨r, hr, hrk⟩
      · exact absurd h ht
      · exact tblSeen_true_of_mem (List.mem_append_right _ hr) hrk
  unfold applyOnce
  unfold applyOnce at hcover
  rw [freshRows_eq_nil hcover, List.append_nil, List.map_append, List.map_map]
  have hcomp : tbl.map (updLast keyR keyS toRow2 b ∘ updLast keyR keyS toRow1 b) =
      tbl.map (updLast keyR keyS toRow2 b) :=
    List.map_congr_left fun t _ => updLast_updLast hk1 b t
  have hfresh := @map_updLast_freshRows σ ρ κ _ keyR keyS toRow1 toRow2 hk1 b []
    (tblSeen keyR tbl)
  rw [List.nil_append] at hfresh
  rw [hcomp, hfresh]

theorem applyBatch_twice (hk1 : ∀ s, keyR (toRow1 s) = keyS s)
    (hk2 : ∀ s, keyR (toRow2 s) = keyS s) (tbl : List ρ) (b : List σ) :
    applyBatch keyR keyS toRow2 (applyBatch keyR keyS toRow1 tbl b) b =
      applyBatch keyR keyS toRow2 tbl b := by
  rw [applyBatch_eq_applyOnce hk1, applyBatch_eq_applyOnce hk2,
    applyBatch_eq_applyOnce hk2, applyOnce_applyOnce hk1 hk2]

/-- Number of destination rows carrying a given key. -/
def countKey (keyR : ρ → κ) (tbl : List ρ) (k : κ) : Nat :=
  tbl.countP (fun t => keyR t = k)

theorem countKey_map_updLast (hkey : ∀ s, keyR (toRow s) = keyS s) :
    countKey keyR (tbl.map (updLast keyR keyS toRow b)) k = countKey keyR tbl k := by
  unfold countKey
  rw [List.countP_map]
  exact List.countP_congr fun t _ => by
    simp [Function.comp, updLast_key hkey]

theorem countKey_freshRows_of_seen (hkey : ∀ s, keyR (toRow s) = keyS s)
    (h : seen k = true) :
    countKey keyR (freshRows keyS toRow seen b) k = 0 := by
  rw [countKey, List.countP_eq_zero]
  intro r hr
  rcases freshRows_mem hr with ⟨v, rfl, hv⟩
  simp only [hkey, decide_eq_true_eq]
  intro hkv
  rw [hkv, h] at hv
  exact Bool.true_eq_false.mp hv

theorem countKey_freshRows_le_one (hkey : ∀ s, keyR (toRow s) = keyS s) :
    ∀ (b : List σ) (seen : κ → Bool), countKey keyR (freshRows keyS toRow seen b) k ≤ 1
  | [], seen => by simp [countKey, freshRows]
  | s :: b, seen => by
      by_cases hs : seen (keyS s) = true
      · rw [freshRows, if_pos hs]
        exact countKey_freshRows_le_one hkey b seen
      · rw [freshRows, if_neg hs]
        unfold countKey
        rw [List.countP_cons]
        by_cases hk : keyS s = k
        · have hzero : countKey keyR
              (freshRows keyS toRow (fun k' => decide (k' = keyS s) || seen k') b) k = 0 :=
            countKey_freshRows_of_seen hkey (by simp [hk])
          unfold countKey at hzero
          rw [hzero]
          have : keyR (toRow ((lastWith keyS b (keyS s)).getD s)) = k := by
            rw [hkey]
            exact (@keyS_lastWith_getD σ κ _ keyS s b).trans hk
          simp [this]
        · have hhead : ¬keyR (toRow ((lastWith keyS b (keyS s)).getD s)) = k := by
            rw [hkey, @keyS_lastWith_getD σ κ _ keyS s b]
            exact hk
          simpa [hhead] using countKey_freshRows_le_one hkey b _

theorem filter_freshRows_eq (hkey : ∀ s, keyR (toRow s) = keyS s) :
    ∀ (b : List σ) (seen : κ → Bool), seen k = false → (∃ s ∈ b, keyS s = k) →
      ∃ v, lastWith keyS b k = some v ∧
        (freshRows keyS toRow seen b).filter (fun r => keyR r = k) = [toRow v]
  | [], seen, _, hex => by simp at hex
  | s :: b, seen, hseen, hex => by
      by_cases hk : keyS s = k
      · have hs : seen (keyS s) = false := by rw [hk]; exact hseen
        rw [freshRows, if_neg (by simp [hs])]
        refine ⟨(lastWith keyS b k).getD s, lastWith_cons_of_eq hk, ?_⟩
        have hhead : keyR (toRow ((lastWith keyS b (keyS s)).getD s)) = k := by
          rw [hkey]
          exact (@keyS_lastWith_getD σ κ _ keyS s b).trans hk
        have htail : countKey keyR
            (freshRows keyS toRow (fun k' => decide (k' = keyS s) || seen k') b) k = 0 :=
          countKey_freshRows_of_seen hkey (by simp [hk])
        have htail' : (freshRows keyS toRow (fun k' => decide (k' = keyS s) || seen k') b).filter
            (fun r => keyR r = k) = [] := by
          rw [List.filter_eq_nil_iff]
          exact (List.countP_eq_zero.mp htail)
        rw [List.filter_cons, if_pos (by simpa using hhead), htail', hk]
      · have hex' : ∃ s' ∈ b, keyS s' = k := by
          rcases hex with ⟨s', hs', hks'⟩
          rcases List.mem_cons.mp hs' with rfl | hmem
          · exact absurd hks' hk
          · exact ⟨s', hmem, hks'⟩
        rw [show lastWith keyS (s :: b) k = lastWith keyS b k from lastWith_cons_of_ne hk]
        by_cases hs : seen (keyS s) = true
        · rw [freshRows, if_pos hs]
          exact filter_freshRows_eq hkey b seen hseen hex'
        · rw [freshRows, if_neg hs]
          have hhead : ¬keyR (toRow ((lastWith keyS b (keyS s)).getD s)) = k := by
            rw [hkey, @keyS_lastWith_getD σ κ _ keyS s b]
            exact hk
          have hkn : ¬k = keyS s := fun h => hk h.symm
          have hseen' : (fun k' => decide (k' = keyS s) || seen k') k = false := by
            simp [hseen, hkn]
          rcases filter_freshRows_eq hkey b
            (fun k' => decide (k' = keyS s) || seen k') hseen' hex' with ⟨v, hv, hf⟩
          refine ⟨v, hv, ?_⟩
          rw [List.filter_cons, if_neg (by simpa using hhead), hf]


theorem countKey_applyBatch_le_one (hkey : ∀ s, keyR (toRow s) = keyS s)
    (h : countKey keyR tbl k ≤ 1) :
    countKey keyR (applyBatch keyR keyS toRow tbl b) k ≤ 1 := by
  rw [applyBatch_eq_applyOnce hkey]
  unfold applyOnce countKey
  rw [List.countP_append]
  by_cases hseen : tblSeen keyR tbl k = true
  · have hz := countKey_freshRows_of_seen (b := b) hkey hseen
    unfold countKey at hz
    rw [hz, Nat.add_zero]
    calc (tbl.map (updLast keyR keyS toRow b)).countP (fun t => keyR t = k)
        = countKey keyR tbl k := countKey_map_updLast hkey
      _ ≤ 1 := h
  · have hmap : (tbl.map (updLast keyR keyS toRow b)).countP (fun t => keyR t = k) = 0 := by
      have := @countKey_map_updLast σ ρ κ _ keyR keyS toRow k b tbl hkey
      unfold countKey at this
      rw [this, List.countP_eq_zero]
      intro t ht
      simp only [decide_eq_true_eq]
      exact fun hkt => hseen (tblSeen_true_of_mem ht hkt)
    rw [hmap, Nat.zero_add]
    exact countKey_freshRows_le_one hkey b _

theorem filter_applyBatch_eq (hkey : ∀ s, keyR (toRow s) = keyS s)
    (huniq : countKey keyR tbl k ≤ 1) (hex : ∃ s ∈ b, keyS s = k) :
    ∃ v, lastWith keyS b k = some v ∧
      (applyBatch keyR keyS toRow tbl b).filter (fun t => keyR t = k) = [toRow v] := by
  rw [applyBatch_eq_applyOnce hkey]
  unfold applyOnce
  rw [List.filter_append]
  have hfilmap : (tbl.map (updLast keyR keyS toRow b)).filter (fun t => keyR t = k) =
      (tbl.filter (fun t => keyR t = k)).map (updLast keyR keyS toRow b) := by
    rw [List.filter_map]
    apply congrArg (List.map (updLast keyR keyS toRow b))
    apply List.filter_congr
    intro t _
    simp [Function.comp, updLast_key hkey]
  by_cases hseen : tblSeen keyR tbl k = true
  · have hfreshz := countKey_freshRows_of_seen (b := b) hkey hseen
    have hfresh : (freshRows keyS toRow (tblSeen keyR tbl) b).filter
        (fun t => keyR t = k) = [] := by
      rw [List.filter_eq_nil_iff]
      unfold countKey at hfreshz
      exact List.countP_eq_zero.mp hfreshz
    rcases List.any_eq_true.mp hseen with ⟨t, htm, htk⟩
    have htk' : keyR t = k := of_decide_eq_true htk
    have hmemf : t ∈ tbl.filter (fun t => keyR t = k) :=
      List.mem_filter.mpr ⟨htm, by simpa using htk'⟩
    have hlen : (tbl.filter (fun t => keyR t = k)).length = 1 := by
      have hge : 1 ≤ (tbl.filter (fun t => keyR t = k)).length :=
        List.length_pos.mpr (List.ne_nil_of_mem hmemf)
      have hle : (tbl.filter (fun t => keyR t = k)).length ≤ 1 := by
        rw [← List.countP_eq_length_filter]
        exact huniq
      exact Nat.le_antisymm hle hge
    rcases List.length_eq_one.mp hlen with ⟨t0, ht0⟩
    have ht0m : t0 ∈ tbl.filter (fun t => keyR t = k) := by rw [ht0]; exact List.mem_cons_self ..
    have ht0k : keyR t0 = k := by simpa using (List.mem_filter.mp ht0m).2
    rcases lastWith_isSome hex with ⟨v, hv⟩
    refine ⟨v, hv, ?_⟩
    rw [hfilmap, hfresh, List.append_nil, ht0]
    simp only [List.map_cons, List.map_nil]
    unfold updLast
    rw [ht0k, hv]
  · have hmapz : tbl.filter (fun t => keyR t = k) = [] := by
      rw [List.filter_eq_nil_iff]
      intro t ht
      simp only [decide_eq_true_eq]
      exact fun hkt => hseen (tblSeen_true_of_mem ht hkt)
    have hseenf : tblSeen keyR tbl k = false := Bool.eq_false_iff.mpr hseen
    rcases filter_freshRows_eq hkey b (tblSeen keyR tbl) hseenf hex with ⟨v, hv, hf⟩
    refine ⟨v, hv, ?_⟩
    rw [hfilmap, hmapz, List.map_nil, List.nil_append, hf]

theorem mem_applyBatch_frame (hkey : ∀ s, keyR (toRow s) = keyS s)
    (ht : t ∈ tbl) (h : ∀ s ∈ b, ¬keyS s = keyR t) :
    t ∈ applyBatch keyR keyS toRow tbl b := by
  rw [applyBatch_eq_applyOnce hkey]
  apply List.mem_append_left
  have : updLast keyR keyS toRow b t = t := updLast_of_not_mem h
  exact this ▸ List.mem_map_of_mem (updLast keyR keyS toRow b) ht

theorem applyBatch_key_preserved (hkey : ∀ s, keyR (toRow s) = keyS s)
    (ht : t ∈ tbl) :
    ∃ t' ∈ applyBatch keyR keyS toRow tbl b, keyR t' = keyR t := by
  rw [applyBatch_eq_applyOnce hkey]
  exact ⟨updLast keyR keyS toRow b t,
    List.mem_append_left _ (List.mem_map_of_mem (updLast keyR keyS toRow b) ht),
    updLast_key hkey b t⟩

end UpsertLemmas

/-! ### The harvest destination table and `main.insert_data`

`main.py` lines 84–155: one cursor per call, one MERGE per record, a single
`conn.commit()` after the loop, `conn.rollback()` and re-raise on any
exception.  The per-record conversions (lines 126–129) run inside the loop,
after earlier records' MERGE statements were already executed.  The
destination's `insert_date` column is refreshed with `GETDATE()` by both the
UPDATE and the INSERT arm. -/

/-- A stored row of the `harvests` table: the canonical fields plus the
server-assigned `insert_date` timestamp (`GETDATE()`), abstracted as a
natural number. -/
structure HRow where
  id : Value
  farm : Value
  plot : Value
  produce : Value
  worker : Value
  unit : Value
  harvest_date : String
  start_time : String
  end_time : String
  duration : Value
  containers : Value
  kgs_harvested : Value
  insert_date : Nat
deriving DecidableEq, Repr

/-- The row the MERGE statement writes for a source record: every canonical
field from the source plus a fresh `insert_date` (both MERGE arms write the
same values, the UPDATE arm leaving the equal key in place). -/
def mkHRow (now : Nat) (c : HCanon) : HRow :=
  { id := c.id, farm := c.farm, plot := c.plot, produce := c.produce,
    worker := c.worker, unit := c.unit, harvest_date := c.harvest_date,
    start_time := c.start_time, end_time := c.end_time,
    duration := c.duration, containers := c.containers,
    kgs_harvested := c.kgs_harvested, insert_date := now }

namespace main

/-- An exception escaping `insert_data`'s loop body. -/
inductive InsErr where
  | malformed (e : MapErr)
  | dbWrite (msg : String)
deriving DecidableEq, Repr

/-- `str(e)` of a loop-body exception. -/
def errMsg : InsErr → String
  | .malformed (.keyError f) => "KeyError: " ++ f
  | .malformed (.parseError f) => "ValueError: " ++ f
  | .dbWrite m => m

/-- The MERGE of `main.py` lines 95–124 executed against the staged
transaction state. -/
def mergeHarvest (now : Nat) (work : List HRow) (c : HCanon) : List HRow :=
  mergeRow HRow.id HCanon.id (mkHRow now) work c

/-- The `cursor.execute` behaviour of a destination that accepts every
statement: stage the MERGE, never fail. -/
def mergeExec (now : Nat) (c : HCanon) (work : List HRow) :
    Except String (List HRow) :=
  .ok (mergeHarvest now work c)

/-- The record loop of `insert_data` (lines 90–144), threading the staged
transaction state `work` through an arbitrary destination behaviour `exec`
(`.error` models a raised database error from `cursor.execute`).  Returns
the trace of MERGE statements actually issued together with the outcome;
the trace of a failing `execute` includes the statement that failed. -/
def insertLoop (exec : HCanon → List HRow → Except String (List HRow)) :
    List HRow → List RawRecord → List HCanon × Except InsErr (List HRow)
  | work, [] => ([], .ok work)
  | work, r :: rs =>
      match normalizeRecord r with
      | .error e => ([], .error (.malformed e))
      | .ok c =>
          match exec c work with
          | .error m => ([c], .error (.dbWrite m))
          | .ok work' =>
              let rest := insertLoop exec work' rs
              (c :: rest.1, rest.2)

/-- `insert_data(conn, data)` (lines 84–155): run the loop against the
committed state; `conn.commit()` installs the staged state on success,
`conn.rollback()` restores the committed state and the exception is
re-raised on failure.  Result: (trace of issued MERGEs, committed state
after the call, re-raised exception if any). -/
def insert_data (exec : HCanon → List HRow → Except String (List HRow))
    (committed : List HRow) (data : List RawRecord) :
    List HCanon × List HRow × Option InsErr :=
  match insertLoop exec committed data with
  | (tr, .ok work) => (tr, work, none)
  | (tr, .error e) => (tr, committed, some e)

/-- Normalization of a whole batch (the mapping stage in isolation). -/
def normalizeBatch : List RawRecord → Except MapErr (List HCanon)
  | [] => .ok []
  | r :: rs =>
      match normalizeRecord r with
      | .error e => .error e
      | .ok c =>
          match normalizeBatch rs with
          | .error e => .error e
          | .ok cs => .ok (c :: cs)

/-- The whole batch applied through the never-failing destination: the
net effect of a successful `insert_data` call. -/
def applyHarvest (now : Nat) (tbl : List HRow) (cs : List HCanon) : List HRow :=
  applyBatch HRow.id HCanon.id (mkHRow now) tbl cs

/-- The 12 fields `insert_data` reads from every record. -/
def required_fields : List String :=
  ["id", "farm", "plot", "produce", "worker", "unit", "harvest_date",
   "start_time", "end_time", "duration", "containers", "kgs_harvested"]

end main

/-! ### `get_tvn.py`: daily totals -/

/-- A row of the `tracefruit_harvest` table, which is also the canonical
shape `insert_data` receives from the DataFrame: the key `date` (already
`strftime('%Y-%m-%d')`-formatted) and the two measure columns. -/
structure TRow where
  date : String
  kgs_harvest_tvn : Value
  kgs_packed_cnd : Value
deriving DecidableEq, Repr

namespace get_tvn

/-- The MERGE of `get_tvn.py` lines 130–142 (`ON target.date =
source.date`; the UPDATE arm rewrites only the two measure columns, which
together with the shared key is the entire row). -/
def mergeTvn (work : List TRow) (r : TRow) : List TRow :=
  mergeRow TRow.date TRow.date (fun r => r) work r

/-- A destination that accepts every MERGE. -/
def mergeExec (r : TRow) (work : List TRow) : Except String (List TRow) :=
  .ok (mergeTvn work r)

/-- The row loop of `insert_data` (lines 120–147) over the staged
transaction state. -/
def insertLoop (exec : TRow → List TRow → Except String (List TRow)) :
    List TRow → List TRow → Except String (List TRow)
  | work, [] => .ok work
  | work, r :: rs =>
      match exec r work with
      | .error m => .error m
      | .ok work' => insertLoop exec work' rs

/-- `insert_data(conn, df)` (lines 116–158): commit on success, rollback
and re-raise on failure. -/
def insert_data (exec : TRow → List TRow → Except String (List TRow))
    (committed : List TRow) (rows : List TRow) :
    List TRow × Option String :=
  match insertLoop exec committed rows with
  | .ok work => (work, none)
  | .error e => (committed, some e)

/-- A successful batch's net effect. -/
def applyTvn (tbl : List TRow) (rows : List TRow) : List TRow :=
  applyBatch TRow.date TRow.date (fun r => r) tbl rows

end get_tvn

/-! ### Fetch stages -/

namespace main

/-- The body-processing tail of `fetch_api_data` (`main.py` lines 74–78):
after `raise_for_status()`, the decoded JSON array is returned unchanged —
the function performs no field or schema validation of any kind. -/
def fetch_api_data (body : List RawRecord) : Except String (List RawRecord) :=
  .ok body

end main

namespace get_tvn

/-- The columns `get_supabase_data` requires (`get_tvn.py` line 86). -/
def required_columns : List String := ["date", "kilos_harvested", "kilos_packed"]

/-- The column set of `pd.DataFrame(rows)`: the union of the rows' keys in
order of first appearance. -/
def dfColumns (rows : List RawRecord) : List String :=
  rows.foldl (fun cols r =>
    r.foldl (fun cols p => if cols.contains p.1 then cols else cols ++ [p.1]) cols) []

/-- A failure of the fetch stage after a transport-level success. -/
inductive FetchErr where
  | missingCols (cols : List String)
  | badDate (row : RawRecord)
deriving DecidableEq, Repr

/-- The date-only regex/constructor pipeline used to model
`pd.to_datetime(df['date']).dt.date` on an ISO `YYYY-MM-DD` cell, rendered
back as the `strftime('%Y-%m-%d')` string that `insert_data` later builds. -/
def parseIsoDate (s : String) : Option String :=
  (parseY (fun y =>
    litCh '-' (alt21 mPat2 mPat1 (fun mo =>
      litCh '-' (alt21 dPat2 dPat1 (fun d => fun rest =>
        if rest.isEmpty then some (y, mo, d) else none)))))
    s.toList).bind (fun c =>
      if dtValid c.1 c.2.1 c.2.2 0 0 0 then
        some (toString c.1 ++ "-" ++ pad2 c.2.1 ++ "-" ++ pad2 c.2.2)
      else none)

/-- One DataFrame row after the renames of lines 92–95 and the date
conversion of line 99.  A date cell that is not a parseable date string is
reported here (in the script an unparseable text raises inside
`pd.to_datetime`, while a missing cell becomes `NaT` and raises only at
`strftime` inside the insert loop — either way the run aborts with no
commit). -/
def rowToT (r : RawRecord) : Except FetchErr TRow :=
  match lookupField r "date" with
  | some (.vstr s) =>
      match parseIsoDate s with
      | some d =>
          .ok { date := d,
                kgs_harvest_tvn := (lookupField r "kilos_harvested").getD (.vstr ""),
                kgs_packed_cnd := (lookupField r "kilos_packed").getD (.vstr "") }
      | none => .error (.badDate r)
  | _ => .error (.badDate r)

/-- The response-processing tail of `get_supabase_data` (`get_tvn.py` lines
76–106): an empty response yields an empty frame; otherwise the required
columns must each appear in at least one row, else a `ValueError` naming
the missing columns is raised; then columns are renamed and the date column
converted. -/
def get_supabase_data (resp : List RawRecord) : Except FetchErr (List TRow) :=
  if resp.isEmpty then .ok []
  else if (required_columns.filter (fun c => !(dfColumns resp).contains c)).isEmpty then
    resp.mapM rowToT
  else
    .error (.missingCols
      (required_columns.filter (fun c => !(dfColumns resp).contains c)))

end get_tvn

/-! ### Notification and orchestration -/

/-- The arguments of one `send_email_notification` call. -/
structure NotifCall where
  success : Bool
  start_date : String
  end_date : String
  records_processed : Nat
  error_message : Option String
deriving DecidableEq, Repr

/-- The three email environment variables (`None` when unset). -/
structure EmailCfg where
  sender : Option String
  password : Option String
  recipient : Option String
deriving DecidableEq, Repr

/-- What became of one notification call. -/
inductive SendResult where
  | skipped
  | sent
  | sendFailed (msg : String)
deriving DecidableEq, Repr

/-- Python truthiness of an optional environment string (`None` and the
empty string are falsy). -/
def pyTruthy : Option String → Bool
  | none => false
  | some s => !(s == "")

namespace main

/-- `send_email_notification` (`main.py` lines 157–199): if any of the
three configuration values is falsy, log a warning and return without
attempting delivery; otherwise build the message and send it, catching and
logging (never re-raising) any SMTP failure, supplied here as the `smtp`
environment outcome. -/
def send_email_notification (cfg : EmailCfg) (smtp : Except String Unit)
    (_call : NotifCall) : SendResult :=
  if pyTruthy cfg.sender && pyTruthy cfg.password && pyTruthy cfg.recipient then
    match smtp with
    | .ok _ => .sent
    | .error m => .sendFailed m
  else .skipped

/-- The environment one `sync_data` run observes: the fetch outcome, the
connection outcome, the committed destination state, the destination's
response to each MERGE, and today's date (for window defaulting). -/
structure HarvestEnv where
  fetch : Except String (List RawRecord)
  connect : Except String Unit
  db : List HRow
  exec : HCanon → List HRow → Except String (List HRow)
  today : String

/-- The observable outcome of one `sync_data` run: the committed
destination state, the `send_email_notification` calls made (in order), and
the exception escaping to the caller, if any. -/
structure HarvestRun where
  db : List HRow
  notifs : List NotifCall
  raised : Option String
deriving Repr

/-- The body of `sync_data`'s `try` block (`main.py` lines 204–234) up to
but not including the success notification: the stage whose exception the
`except` clause catches.  Returns the new committed state and
`records_processed` on success. -/
def sync_attempt (env : HarvestEnv) : Except String (List HRow × Nat) :=
  match env.fetch with
  | .error e => .error e
  | .ok data =>
      match env.connect with
      | .error e => .error e
      | .ok _ =>
          match insert_data env.exec env.db data with
          | (_, _, some e) => .error (errMsg e)
          | (_, db', none) => .ok (db', data.length)

/-- `sync_data(start_date, end_date)` (`main.py` lines 201–247): default
both window bounds to today, run fetch → connect → insert, and hand the
outcome to `send_email_notification` exactly once — the success call with
the window and `records_processed`, or, from the `except Exception` clause,
the failure call with the window and `str(e)`; the exception is swallowed
and the function returns normally. -/
def sync_data (env : HarvestEnv) (sd ed : Option String) : HarvestRun :=
  let start_date := sd.getD env.today
  let end_date := ed.getD env.today
  match env.fetch with
  | .error e =>
      { db := env.db,
        notifs := [{ success := false, start_date, end_date,
                     records_processed := 0, error_message := some e }],
        raised := none }
  | .ok data =>
      match env.connect with
      | .error e =>
          { db := env.db,
            notifs := [{ success := false, start_date, end_date,
                         records_processed := data.length, error_message := some e }],
            raised := none }
      | .ok _ =>
          match insert_data env.exec env.db data with
          | (_, db', some e) =>
              { db := db',
                notifs := [{ success := false, start_date, end_date,
                             records_processed := data.length,
                             error_message := some (errMsg e) }],
                raised := none }
          | (_, db', none) =>
              { db := db',
                notifs := [{ success := true, start_date, end_date,
                             records_processed := data.length,
                             error_message := none }],
                raised := none }

end main

namespace get_tvn

/-- The environment one TVN `sync_data` run observes. -/
structure TvnEnv where
  response : Except String (List RawRecord)
  connect : Except String Unit
  db : List TRow
  exec : TRow → List TRow → Except String (List TRow)
  today : String

/-- The observable outcome of one TVN `sync_data` run.  The function
contains no notification call at all, so `notifs` is built empty on every
path. -/
structure TvnRun where
  db : List TRow
  notifs : List NotifCall
  raised : Option String
deriving Repr

/-- `sync_data(start_date, end_date)` (`get_tvn.py` lines 160–187): default
the window, fetch from Supabase, connect, insert; every failure is caught
by the `except Exception` clause, logged, and swallowed — no notification
is sent on any path. -/
def sync_data (env : TvnEnv) (sd ed : Option String) : TvnRun :=
  let _start_date := sd.getD env.today
  let _end_date := ed.getD env.today
  match env.response with
  | .error _ => { db := env.db, notifs := [], raised := none }
  | .ok resp =>
      match get_supabase_data resp with
      | .error _ => { db := env.db, notifs := [], raised := none }
      | .ok rows =>
          match env.connect with
          | .error _ => { db := env.db, notifs := [], raised := none }
          | .ok _ =>
              match insert_data env.exec env.db rows with
              | (db', some _) => { db := db', notifs := [], raised := none }
              | (db', none) => { db := db', notifs := [], raised := none }

end get_tvn

/-! ### Bridging lemmas: the loops versus the batch transformation -/

namespace main

theorem insertLoop_merge_ok (now : Nat) :
    ∀ (data : List RawRecord) (cs : List HCanon) (work : List HRow),
      normalizeBatch data = .ok cs →
      insertLoop (mergeExec now) work data =
        (cs, .ok (applyBatch HRow.id HCanon.id (mkHRow now) work cs))
  | [], cs, work, h => by
      have hcs : ([] : List HCanon) = cs := Except.ok.inj h
      subst hcs
      rfl
  | r :: rs, cs, work, h => by
      rw [normalizeBatch] at h
      cases hr : normalizeRecord r with
      | error e => rw [hr] at h; simp at h
      | ok c =>
          rw [hr] at h
          cases hrs : normalizeBatch rs with
          | error e => rw [hrs] at h; simp at h
          | ok cs' =>
              rw [hrs] at h
              simp only [Except.ok.injEq] at h
              subst h
              have ih := insertLoop_merge_ok now rs cs' (mergeHarvest now work c) hrs
              simp only [insertLoop, hr, mergeExec, ih]
              rfl

theorem insert_data_merge_ok (now : Nat) (data : List RawRecord)
    (cs : List HCanon) (committed : List HRow)
    (h : normalizeBatch data = .ok cs) :
    insert_data (mergeExec now) committed data =
      (cs, applyHarvest now committed cs, none) := by
  rw [insert_data, insertLoop_merge_ok now data cs committed h]
  rfl

/-- Rollback: whenever the loop raises, the committed state survives. -/
theorem insert_data_rollback (exec : HCanon → List HRow → Except String (List HRow))
    (committed : List HRow) (data : List RawRecord) (e : InsErr)
    (h : (insert_data exec committed data).2.2 = some e) :
    (insert_data exec committed data).2.1 = committed := by
  unfold insert_data at h ⊢
  rcases hl : insertLoop exec committed data with ⟨tr, res⟩
  rw [hl] at h
  cases res with
  | ok work => simp at h
  | error e' => rfl

/-- A batch containing an unmappable record always raises, whatever the
destination does. -/
theorem insert_data_raises_of_malformed
    (exec : HCanon → List HRow → Except String (List HRow)) :
    ∀ (data : List RawRecord) (committed : List HRow),
      (∃ r ∈ data, ∀ c, ¬normalizeRecord r = .ok c) →
      ∃ e, (insert_data exec committed data).2.2 = some e
  | [], _, hex => by simp at hex
  | r :: rs, committed, hex => by
      cases hr : normalizeRecord r with
      | error e => exact ⟨.malformed e, by simp [insert_data, insertLoop, hr]⟩
      | ok c =>
          have hex' : ∃ r' ∈ rs, ∀ c', ¬normalizeRecord r' = .ok c' := by
            rcases hex with ⟨r', hmem, hbad⟩
            rcases List.mem_cons.mp hmem with rfl | hmem'
            · exact absurd hr (hbad c)
            · exact ⟨r', hmem', hbad⟩
          cases hx : exec c committed with
          | error m => exact ⟨.dbWrite m, by simp [insert_data, insertLoop, hr, hx]⟩
          | ok work' =>
              rcases insert_data_raises_of_malformed exec rs work' hex' with ⟨e, he⟩
              rcases hl : insertLoop exec work' rs with ⟨tr, res⟩
              simp only [insert_data, hl] at he
              cases res with
              | ok w => simp at he
              | error e'' =>
                  exact ⟨e, by
                    simpa [insert_data, insertLoop, hr, hx, hl] using he⟩

/-- The mapping failure of record `k` aborts the loop there: the MERGE
statements issued are exactly those of the records before `k`, and the
mapping error propagates. -/
theorem insertLoop_trace_of_malformed (now : Nat) (e : MapErr) :
    ∀ (pre : List RawRecord) (cs : List HCanon) (bad : RawRecord)
      (rest : List RawRecord) (work : List HRow),
      normalizeBatch pre = .ok cs → normalizeRecord bad = .error e →
      insertLoop (mergeExec now) work (pre ++ bad :: rest) =
        (cs, .error (.malformed e))
  | [], cs, bad, rest, work, hpre, hbad => by
      have hcs : ([] : List HCanon) = cs := Except.ok.inj hpre
      subst hcs
      simp [insertLoop, hbad]
  | r :: pre, cs, bad, rest, work, hpre, hbad => by
      rw [normalizeBatch] at hpre
      cases hr : normalizeRecord r with
      | error e' => rw [hr] at hpre; simp at hpre
      | ok c =>
          rw [hr] at hpre
          cases hps : normalizeBatch pre with
          | error e' => rw [hps] at hpre; simp at hpre
          | ok cs' =>
              rw [hps] at hpre
              simp only [Except.ok.injEq] at hpre
              subst hpre
              have ih := insertLoop_trace_of_malformed now e pre cs' bad rest
                (mergeHarvest now work c) hps hbad
              simp only [List.cons_append, insertLoop, hr, mergeExec,
                List.append_eq, ih]

/-- `insert_data` on a batch whose record `k` (and no earlier record) fails
mapping: the issued MERGEs are those of records `1..k-1`, the error is
re-raised, and the rollback leaves the committed state unchanged. -/
theorem insert_data_trace_of_malformed (now : Nat) (e : MapErr)
    (pre : List RawRecord) (cs : List HCanon) (bad : RawRecord)
    (rest : List RawRecord) (committed : List HRow)
    (hpre : normalizeBatch pre = .ok cs) (hbad : normalizeRecord bad = .error e) :
    insert_data (mergeExec now) committed (pre ++ bad :: rest) =
      (cs, committed, some (.malformed e)) := by
  rw [insert_data,
    insertLoop_trace_of_malformed now e pre cs bad rest committed hpre hbad]

end main

namespace get_tvn

theorem insertLoopT_merge_ok :
    ∀ (rows : List TRow) (work : List TRow),
      insertLoop mergeExec work rows = .ok (applyTvn work rows)
  | [], work => rfl
  | r :: rs, work => by
      have ih := insertLoopT_merge_ok rs (mergeTvn work r)
      simp only [insertLoop, mergeExec, ih]
      rfl

theorem insert_dataT_merge_ok (rows : List TRow) (committed : List TRow) :
    insert_data mergeExec committed rows = (applyTvn committed rows, none) := by
  rw [insert_data, insertLoopT_merge_ok rows committed]

/-- Rollback for the TVN loop. -/
theorem insert_dataT_rollback (exec : TRow → List TRow → Except String (List TRow))
    (committed rows : List TRow) (e : String)
    (h : (insert_data exec committed rows).2 = some e) :
    (insert_data exec committed rows).1 = committed := by
  unfold insert_data at h ⊢
  cases hl : insertLoop exec committed rows with
  | ok work => rw [hl] at h; simp at h
  | error e' => rfl

end get_tvn

/-! ### Normalization: success characterization and produced shapes -/

theorem except_isOk_iff {ε α : Type} (x : Except ε α) :
    x.isOk = true ↔ ∃ a, x = .ok a := by
  cases x <;> simp [Except.isOk, Except.toBool]

namespace main

theorem normalizeRecord_isOk_eq_validRecord (r : RawRecord) :
    (normalizeRecord r).isOk = validRecord r := by
  unfold normalizeRecord validRecord getField convDateTime convTime
  cases h1 : lookupField r "harvest_date" with
  | none => simp [*, Except.isOk, Except.toBool, bind, Except.bind, pure, Except.pure]
  | some v1 =>
  cases v1 with
  | vnum n => simp [*, Except.isOk, Except.toBool, bind, Except.bind, pure, Except.pure]
  | vstr s1 =>
  cases hp1 : strptimeDateTime s1 with
  | none => simp [*, Except.isOk, Except.toBool, bind, Except.bind, pure, Except.pure]
  | some t1 =>
  cases h2 : lookupField r "start_time" with
  | none => simp [*, Except.isOk, Except.toBool, bind, Except.bind, pure, Except.pure]
  | some v2 =>
  cases v2 with
  | vnum n => simp [*, Except.isOk, Except.toBool, bind, Except.bind, pure, Except.pure]
  | vstr s2 =>
  cases hp2 : strptimeHM s2 with
  | none => simp [*, Except.isOk, Except.toBool, bind, Except.bind, pure, Except.pure]
  | some t2 =>
  cases h3 : lookupField r "end_time" with
  | none => simp [*, Except.isOk, Except.toBool, bind, Except.bind, pure, Except.pure]
  | some v3 =>
  cases v3 with
  | vnum n => simp [*, Except.isOk, Except.toBool, bind, Except.bind, pure, Except.pure]
  | vstr s3 =>
  cases hp3 : strptimeHM s3 with
  | none => simp [*, Except.isOk, Except.toBool, bind, Except.bind, pure, Except.pure]
  | some t3 =>
  cases h4 : lookupField r "id" with
  | none => simp [*, Except.isOk, Except.toBool, bind, Except.bind, pure, Except.pure]
  | some v4 =>
  cases h5 : lookupField r "farm" with
  | none => simp [*, Except.isOk, Except.toBool, bind, Except.bind, pure, Except.pure]
  | some v5 =>
  cases h6 : lookupField r "plot" with
  | none => simp [*, Except.isOk, Except.toBool, bind, Except.bind, pure, Except.pure]
  | some v6 =>
  cases h7 : lookupField r "produce" with
  | none => simp [*, Except.isOk, Except.toBool, bind, Except.bind, pure, Except.pure]
  | some v7 =>
  cases h8 : lookupField r "worker" with
  | none => simp [*, Except.isOk, Except.toBool, bind, Except.bind, pure, Except.pure]
  | some v8 =>
  cases h9 : lookupField r "unit" with
  | none => simp [*, Except.isOk, Except.toBool, bind, Except.bind, pure, Except.pure]
  | some v9 =>
  cases h10 : lookupField r "duration" with
  | none => simp [*, Except.isOk, Except.toBool, bind, Except.bind, pure, Except.pure]
  | some v10 =>
  cases h11 : lookupField r "containers" with
  | none => simp [*, Except.isOk, Except.toBool, bind, Except.bind, pure, Except.pure]
  | some v11 =>
  cases h12 : lookupField r "kgs_harvested" with
  | none => simp [*, Except.isOk, Except.toBool, bind, Except.bind, pure, Except.pure]
  | some v12 => simp [*, Except.isOk, Except.toBool, bind, Except.bind, pure, Except.pure]

theorem strptimeDateTime_valid (s : String) (t : Nat × Nat × Nat × Nat × Nat × Nat)
    (h : strptimeDateTime s = some t) :
    dtValid t.1 t.2.1 t.2.2.1 t.2.2.2.1 t.2.2.2.2.1 t.2.2.2.2.2 = true := by
  unfold strptimeDateTime at h
  cases hm : matchDateTime s.toList with
  | none => rw [hm] at h; simp at h
  | some c0 =>
      rw [hm, Option.some_bind] at h
      by_cases hv : dtValid c0.1 c0.2.1 c0.2.2.1 c0.2.2.2.1 c0.2.2.2.2.1 c0.2.2.2.2.2 = true
      · rw [if_pos hv] at h
        cases Option.some.inj h
        exact hv
      · rw [if_neg hv] at h
        simp at h

theorem strptimeHM_valid (s : String) (t : Nat × Nat)
    (h : strptimeHM s = some t) : t.1 ≤ 23 ∧ t.2 ≤ 59 := by
  unfold strptimeHM at h
  cases hm : matchHM s.toList with
  | none => rw [hm] at h; simp at h
  | some c0 =>
      rw [hm, Option.some_bind] at h
      by_cases hv : (c0.1 ≤ 23 && c0.2 ≤ 59) = true
      · rw [if_pos hv] at h
        cases Option.some.inj h
        simpa using hv
      · rw [if_neg hv] at h
        simp at h

theorem normalizeRecord_ok_shape (r : RawRecord) (c : HCanon)
    (h : normalizeRecord r = .ok c) :
    ∃ s1 t1 s2 t2 s3 t3,
      lookupField r "harvest_date" = some (.vstr s1) ∧ strptimeDateTime s1 = some t1 ∧
      lookupField r "start_time" = some (.vstr s2) ∧ strptimeHM s2 = some t2 ∧
      lookupField r "end_time" = some (.vstr s3) ∧ strptimeHM s3 = some t3 ∧
      c.harvest_date =
        fmtDateTime t1.1 t1.2.1 t1.2.2.1 t1.2.2.2.1 t1.2.2.2.2.1 t1.2.2.2.2.2 ∧
      dtValid t1.1 t1.2.1 t1.2.2.1 t1.2.2.2.1 t1.2.2.2.2.1 t1.2.2.2.2.2 = true ∧
      c.start_time = fmtHMS t2.1 t2.2 ∧ t2.1 ≤ 23 ∧ t2.2 ≤ 59 ∧
      c.end_time = fmtHMS t3.1 t3.2 ∧ t3.1 ≤ 23 ∧ t3.2 ≤ 59 ∧
      lookupField r "id" = some c.id ∧ lookupField r "farm" = some c.farm ∧
      lookupField r "plot" = some c.plot ∧ lookupField r "produce" = some c.produce ∧
      lookupField r "worker" = some c.worker ∧ lookupField r "unit" = some c.unit ∧
      lookupField r "duration" = some c.duration ∧
      lookupField r "containers" = some c.containers ∧
      lookupField r "kgs_harvested" = some c.kgs_harvested := by
  unfold normalizeRecord getField convDateTime convTime at h
  cases h1 : lookupField r "harvest_date" with
  | none => simp [h1, bind, Except.bind] at h
  | some v1 =>
  cases v1 with
  | vnum n => simp [h1, bind, Except.bind] at h
  | vstr s1 =>
  cases hp1 : strptimeDateTime s1 with
  | none => simp [h1, hp1, bind, Except.bind] at h
  | some t1 =>
  cases h2 : lookupField r "start_time" with
  | none => simp [h1, hp1, h2, bind, Except.bind] at h
  | some v2 =>
  cases v2 with
  | vnum n => simp [h1, hp1, h2, bind, Except.bind] at h
  | vstr s2 =>
  cases hp2 : strptimeHM s2 with
  | none => simp [h1, hp1, h2, hp2, bind, Except.bind] at h
  | some t2 =>
  cases h3 : lookupField r "end_time" with
  | none => simp [h1, hp1, h2, hp2, h3, bind, Except.bind] at h
  | some v3 =>
  cases v3 with
  | vnum n => simp [h1, hp1, h2, hp2, h3, bind, Except.bind] at h
  | vstr s3 =>
  cases hp3 : strptimeHM s3 with
  | none => simp [h1, hp1, h2, hp2, h3, hp3, bind, Except.bind] at h
  | some t3 =>
  cases h4 : lookupField r "id" with
  | none => simp [h1, hp1, h2, hp2, h3, hp3, h4, bind, Except.bind] at h
  | some v4 =>
  cases h5 : lookupField r "farm" with
  | none => simp [h1, hp1, h2, hp2, h3, hp3, h4, h5, bind, Except.bind] at h
  | some v5 =>
  cases h6 : lookupField r "plot" with
  | none => simp [h1, hp1, h2, hp2, h3, hp3, h4, h5, h6, bind, Except.bind] at h
  | some v6 =>
  cases h7 : lookupField r "produce" with
  | none => simp [h1, hp1, h2, hp2, h3, hp3, h4, h5, h6, h7, bind, Except.bind] at h
  | some v7 =>
  cases h8 : lookupField r "worker" with
  | none => simp [h1, hp1, h2, hp2, h3, hp3, h4, h5, h6, h7, h8, bind, Except.bind] at h
  | some v8 =>
  cases h9 : lookupField r "unit" with
  | none =>
      simp [h1, hp1, h2, hp2, h3, hp3, h4, h5, h6, h7, h8, h9, bind, Except.bind] at h
  | some v9 =>
  cases h10 : lookupField r "duration" with
  | none =>
      simp [h1, hp1, h2, hp2, h3, hp3, h4, h5, h6, h7, h8, h9, h10, bind,
        Except.bind] at h
  | some v10 =>
  cases h11 : lookupField r "containers" with
  | none =>
      simp [h1, hp1, h2, hp2, h3, hp3, h4, h5, h6, h7, h8, h9, h10, h11, bind,
        Except.bind] at h
  | some v11 =>
  cases h12 : lookupField r "kgs_harvested" with
  | none =>
      simp [h1, hp1, h2, hp2, h3, hp3, h4, h5, h6, h7, h8, h9, h10, h11, h12, bind,
        Except.bind] at h
  | some v12 =>
      simp only [h1, hp1, h2, hp2, h3, hp3, h4, h5, h6, h7, h8, h9, h10, h11, h12,
        bind, Except.bind, pure, Except.pure, Except.ok.injEq] at h
      subst h
      exact ⟨s1, t1, s2, t2, s3, t3, rfl, hp1, rfl, hp2, rfl, hp3, rfl,
        strptimeDateTime_valid s1 t1 hp1, rfl, (strptimeHM_valid s2 t2 hp2).1,
        (strptimeHM_valid s2 t2 hp2).2, rfl, (strptimeHM_valid s3 t3 hp3).1,
        (strptimeHM_valid s3 t3 hp3).2, rfl, rfl, rfl, rfl, rfl, rfl, rfl, rfl, rfl⟩

end main

/-! ### Sample data for concrete evaluations -/

/-- A well-formed raw harvest record. -/
def sampleGood : RawRecord :=
  [("id", .vstr "H100"), ("farm", .vstr "F1"), ("plot", .vstr "P1"),
   ("produce", .vstr "mango"), ("worker", .vstr "W1"), ("unit", .vstr "kg"),
   ("harvest_date", .vstr "2024-06-01 08:30:00"),
   ("start_time", .vstr "08:30"), ("end_time", .vstr "10:00"),
   ("duration", .vnum 90), ("containers", .vnum 3), ("kgs_harvested", .vnum 120)]

/-- The canonical row `sampleGood` maps to. -/
def sampleCanon : HCanon :=
  { id := .vstr "H100", farm := .vstr "F1", plot := .vstr "P1",
    produce := .vstr "mango", worker := .vstr "W1", unit := .vstr "kg",
    harvest_date := "2024-06-01 08:30:00", start_time := "08:30:00",
    end_time := "10:00:00", duration := .vnum 90, containers := .vnum 3,
    kgs_harvested := .vnum 120 }

/-- A raw harvest record whose `harvest_date` does not parse. -/
def sampleBad : RawRecord :=
  [("id", .vstr "H101"), ("farm", .vstr "F1"), ("plot", .vstr "P1"),
   ("produce", .vstr "mango"), ("worker", .vstr "W1"), ("unit", .vstr "kg"),
   ("harvest_date", .vstr "01/06/2024"),
   ("start_time", .vstr "08:30"), ("end_time", .vstr "10:00"),
   ("duration", .vnum 90), ("containers", .vnum 3), ("kgs_harvested", .vnum 120)]

/-- A daily-totals row. -/
def sampleT1 : TRow :=
  { date := "2024-06-01", kgs_harvest_tvn := .vnum 100, kgs_packed_cnd := .vnum 80 }

/-- Another daily-totals row with the same key and different values. -/
def sampleT2 : TRow :=
  { date := "2024-06-01", kgs_harvest_tvn := .vnum 150, kgs_packed_cnd := .vnum 90 }

example : main.normalizeRecord sampleGood = .ok sampleCanon := by decide

example : main.normalizeRecord sampleBad = .error (.parseError "harvest_date") := by
  decide

/-! ### The claims -/

/-- C1 (counterexample): applying the same one-record batch to the state it
itself produced does not return the identical state: the harvest MERGE
refreshes `insert_date = GETDATE()` on every write, so a second run at a
later clock value rewrites that column. -/
theorem C1_counterexample :
    (main.insert_data (main.mergeExec 1)
        ((main.insert_data (main.mergeExec 0) [] [sampleGood]).2.1) [sampleGood]).2.1 ≠
      (main.insert_data (main.mergeExec 0) [] [sampleGood]).2.1 := by
  decide

/-- C1 (amended): re-running the identical batch changes nothing except the
`insert_date` (last-synced) timestamp: the state after running at time
`now1` and again at time `now2` is exactly the state a single run at `now2`
would produce — so runs with an unchanged clock are literally idempotent,
and the daily-totals upsert (which stores no timestamp) is unconditionally
idempotent, for any number `n ≥ 1` of repetitions. -/
theorem C1_idempotent_amended :
    (∀ (now1 now2 : Nat) (committed : List HRow) (data : List RawRecord)
        (cs : List HCanon), main.normalizeBatch data = .ok cs →
        (main.insert_data (main.mergeExec now2)
            ((main.insert_data (main.mergeExec now1) committed data).2.1) data).2.1 =
          (main.insert_data (main.mergeExec now2) committed data).2.1) ∧
    (∀ (committed rows : List TRow) (n : Nat), 1 ≤ n →
        (fun tbl => (get_tvn.insert_data get_tvn.mergeExec tbl rows).1)^[n] committed =
          (get_tvn.insert_data get_tvn.mergeExec committed rows).1) := by
  constructor
  · intro now1 now2 committed data cs h
    rw [main.insert_data_merge_ok now1 data cs committed h]
    rw [main.insert_data_merge_ok now2 data cs
      (main.applyHarvest now1 committed cs) h]
    rw [main.insert_data_merge_ok now2 data cs committed h]
    show applyBatch HRow.id HCanon.id (mkHRow now2)
        (applyBatch HRow.id HCanon.id (mkHRow now1) committed cs) cs =
      applyBatch HRow.id HCanon.id (mkHRow now2) committed cs
    exact @applyBatch_twice HCanon HRow Value _ HRow.id HCanon.id
      (mkHRow now1) (mkHRow now2) (fun _ => rfl) (fun _ => rfl) committed cs
  · intro committed rows n hn
    induction n with
    | zero => exact absurd hn (by simp)
    | succ m ih =>
        rcases Nat.eq_or_lt_of_le hn with h1 | h1
        · rw [← h1]
          simp [Function.iterate_one]
        · have hm : 1 ≤ m := Nat.lt_succ_iff.mp h1
          rw [Function.iterate_succ_apply', ih hm]
          simp only [get_tvn.insert_dataT_merge_ok]
          show applyBatch TRow.date TRow.date (fun r => r)
              (applyBatch TRow.date TRow.date (fun r => r) committed rows) rows =
            applyBatch TRow.date TRow.date (fun r => r) committed rows
          exact @applyBatch_twice TRow TRow String _ TRow.date TRow.date
            (fun r => r) (fun r => r) (fun _ => rfl) (fun _ => rfl) committed rows

/-- C1 (witness): the amended idempotence evaluated on concrete data. -/
theorem C1_idempotent_amended_witness :
    main.normalizeBatch [sampleGood] = .ok [sampleCanon] ∧
    (main.insert_data (main.mergeExec 1)
        ((main.insert_data (main.mergeExec 0) [] [sampleGood]).2.1) [sampleGood]).2.1 =
      (main.insert_data (main.mergeExec 1) [] [sampleGood]).2.1 ∧
    (1 : Nat) ≤ 3 ∧
    (fun tbl => (get_tvn.insert_data get_tvn.mergeExec tbl [sampleT1, sampleT2]).1)^[3]
        [] =
      (get_tvn.insert_data get_tvn.mergeExec [] [sampleT1, sampleT2]).1 :=
  ⟨by decide,
   C1_idempotent_amended.1 0 1 [] [sampleGood] [sampleCanon] (by decide),
   by decide,
   C1_idempotent_amended.2 [] [sampleT1, sampleT2] 3 (by decide)⟩

/-- C2: atomicity of `insert_data`.  (a) Whenever the call re-raises — for
any destination behaviour, so in particular for a write failure at any row
`k` — the committed destination state is exactly the state before the call;
(b) a batch containing a row that fails mapping always re-raises and leaves
the state unchanged, whatever the destination does; (c) the same rollback
discipline holds for the daily-totals `insert_data`.  There is no partial
commit and no retry: the one commit happens only on the all-rows-succeeded
path. -/
theorem C2_atomic_rollback :
    (∀ (exec : HCanon → List HRow → Except String (List HRow))
        (committed : List HRow) (data : List RawRecord) (e : main.InsErr),
        (main.insert_data exec committed data).2.2 = some e →
        (main.insert_data exec committed data).2.1 = committed) ∧
    (∀ (exec : HCanon → List HRow → Except String (List HRow))
        (committed : List HRow) (data : List RawRecord),
        (∃ r ∈ data, ∀ c, ¬main.normalizeRecord r = .ok c) →
        ∃ e, (main.insert_data exec committed data).2.2 = some e ∧
          (main.insert_data exec committed data).2.1 = committed) ∧
    (∀ (exec : TRow → List TRow → Except String (List TRow))
        (committed rows : List TRow) (e : String),
        (get_tvn.insert_data exec committed rows).2 = some e →
        (get_tvn.insert_data exec committed rows).1 = committed) := by
  refine ⟨main.insert_data_rollback, ?_, get_tvn.insert_dataT_rollback⟩
  intro exec committed data hex
  rcases main.insert_data_raises_of_malformed exec data committed hex with ⟨e, he⟩
  exact ⟨e, he, main.insert_data_rollback exec committed data e he⟩

/-- C2 (witness): a destination write failure on a concrete one-row batch,
and a concrete batch with a malformed second row, both leave the concrete
committed state intact. -/
theorem C2_atomic_rollback_witness :
    (main.insert_data (fun _ _ => .error "deadlock") [mkHRow 0 sampleCanon]
        [sampleGood]).2.2 = some (.dbWrite "deadlock") ∧
    (main.insert_data (fun _ _ => .error "deadlock") [mkHRow 0 sampleCanon]
        [sampleGood]).2.1 = [mkHRow 0 sampleCanon] ∧
    (∃ r ∈ [sampleGood, sampleBad], ∀ c, ¬main.normalizeRecord r = .ok c) ∧
    (∃ e, (main.insert_data (main.mergeExec 0) [mkHRow 0 sampleCanon]
        [sampleGood, sampleBad]).2.2 = some e ∧
      (main.insert_data (main.mergeExec 0) [mkHRow 0 sampleCanon]
        [sampleGood, sampleBad]).2.1 = [mkHRow 0 sampleCanon]) ∧
    (get_tvn.insert_data (fun _ _ => .error "deadlock") [sampleT1] [sampleT2]).1 =
      [sampleT1] := by
  have hbad : ∃ r ∈ [sampleGood, sampleBad], ∀ c, ¬main.normalizeRecord r = .ok c := by
    refine ⟨sampleBad, by decide, fun c hc => ?_⟩
    have : main.normalizeRecord sampleBad = .error (.parseError "harvest_date") := by
      decide
    rw [this] at hc
    exact Except.noConfusion hc
  refine ⟨by decide, ?_, hbad, ?_, ?_⟩
  · exact C2_atomic_rollback.1 (fun _ _ => .error "deadlock") [mkHRow 0 sampleCanon]
      [sampleGood] (.dbWrite "deadlock") (by decide)
  · exact C2_atomic_rollback.2.1 (main.mergeExec 0) [mkHRow 0 sampleCanon]
      [sampleGood, sampleBad] hbad
  · exact C2_atomic_rollback.2.2 (fun _ _ => .error "deadlock") [sampleT1]
      [sampleT2] "deadlock" (by decide)

/-- C3 (counterexample): a two-record batch whose second record fails
normalization.  The batch does contain a row failing normalization, yet the
write statement for the first record has already been issued when the
mapping failure is detected — the issued-MERGE trace is `[sampleCanon]`,
not empty, because each record is converted inside the write loop, after
the preceding records' MERGEs were executed. -/
theorem C3_counterexample :
    main.normalizeRecord sampleBad = .error (.parseError "harvest_date") ∧
    (main.insert_data (main.mergeExec 0) [] [sampleGood, sampleBad]).1 =
      [sampleCanon] ∧
    [sampleCanon] ≠ ([] : List HCanon) := by
  refine ⟨by decide, by decide, by decide⟩

/-- C3 (amended): when the first mapping failure of the batch is at record
`k`, the run aborts at record `k`'s conversion: MERGE statements have been
issued exactly for records `1..k-1` (none for the failing record or any
later one), the mapping error propagates, and — because the whole batch is
one rolled-back transaction — the committed destination state is unchanged;
no destination mutation is committed. -/
theorem C3_failfast_amended (now : Nat) (e : MapErr) (pre : List RawRecord)
    (cs : List HCanon) (bad : RawRecord) (rest : List RawRecord)
    (committed : List HRow) (hpre : main.normalizeBatch pre = .ok cs)
    (hbad : main.normalizeRecord bad = .error e) :
    main.insert_data (main.mergeExec now) committed (pre ++ bad :: rest) =
      (cs, committed, some (.malformed e)) :=
  main.insert_data_trace_of_malformed now e pre cs bad rest committed hpre hbad

/-- C3 (witness): the amended statement on the concrete two-record batch. -/
theorem C3_failfast_amended_witness :
    main.normalizeBatch [sampleGood] = .ok [sampleCanon] ∧
    main.normalizeRecord sampleBad = .error (.parseError "harvest_date") ∧
    main.insert_data (main.mergeExec 0) [] ([sampleGood] ++ sampleBad :: []) =
      ([sampleCanon], [], some (.malformed (.parseError "harvest_date"))) :=
  ⟨by decide, by decide,
   C3_failfast_amended 0 (.parseError "harvest_date") [sampleGood] [sampleCanon]
     sampleBad [] [] (by decide) (by decide)⟩

/-- A second valid raw record carrying the same `id` as `sampleGood` with a
different measure value. -/
def sampleGoodUpd : RawRecord :=
  [("id", .vstr "H100"), ("farm", .vstr "F1"), ("plot", .vstr "P2"),
   ("produce", .vstr "mango"), ("worker", .vstr "W2"), ("unit", .vstr "kg"),
   ("harvest_date", .vstr "2024-06-01 09:30:00"),
   ("start_time", .vstr "09:30"), ("end_time", .vstr "11:00"),
   ("duration", .vnum 90), ("containers", .vnum 4), ("kgs_harvested", .vnum 150)]

/-- The canonical row `sampleGoodUpd` maps to. -/
def sampleCanonUpd : HCanon :=
  { id := .vstr "H100", farm := .vstr "F1", plot := .vstr "P2",
    produce := .vstr "mango", worker := .vstr "W2", unit := .vstr "kg",
    harvest_date := "2024-06-01 09:30:00", start_time := "09:30:00",
    end_time := "11:00:00", duration := .vnum 90, containers := .vnum 4,
    kgs_harvested := .vnum 150 }

/-- A stored harvest row with a key not occurring in the samples' batches. -/
def sampleOtherRow : HRow :=
  { id := .vstr "H999", farm := .vstr "F2", plot := .vstr "P9",
    produce := .vstr "kiwi", worker := .vstr "W9", unit := .vstr "kg",
    harvest_date := "2024-05-30 07:00:00", start_time := "07:00:00",
    end_time := "08:00:00", duration := .vnum 60, containers := .vnum 1,
    kgs_harvested := .vnum 40, insert_date := 5 }

/-- A daily-totals row with a key distinct from `sampleT1`/`sampleT2`. -/
def sampleTOther : TRow :=
  { date := "2024-05-30", kgs_harvest_tvn := .vnum 10, kgs_packed_cnd := .vnum 8 }

/-- C4: key uniqueness.  If the destination holds at most one row per key,
so does the destination after any successful `insert_data` batch — and for
a key that occurs in the batch (in particular when two batch rows share
it), the destination afterwards holds exactly one row with that key,
carrying the field values of the last batch row with that key (for harvests
together with the fresh `insert_date`). -/
theorem C4_key_uniqueness :
    (∀ (now : Nat) (tbl : List HRow) (data : List RawRecord) (cs : List HCanon)
        (k : Value), main.normalizeBatch data = .ok cs →
        countKey HRow.id tbl k ≤ 1 →
        countKey HRow.id (main.insert_data (main.mergeExec now) tbl data).2.1 k ≤ 1) ∧
    (∀ (now : Nat) (tbl : List HRow) (data : List RawRecord) (cs : List HCanon)
        (k : Value), main.normalizeBatch data = .ok cs →
        countKey HRow.id tbl k ≤ 1 → (∃ c ∈ cs, HCanon.id c = k) →
        ∃ v, lastWith HCanon.id cs k = some v ∧
          ((main.insert_data (main.mergeExec now) tbl data).2.1).filter
            (fun t => HRow.id t = k) = [mkHRow now v]) ∧
    (∀ (tbl rows : List TRow) (k : String),
        countKey TRow.date tbl k ≤ 1 →
        countKey TRow.date (get_tvn.insert_data get_tvn.mergeExec tbl rows).1 k ≤ 1) ∧
    (∀ (tbl rows : List TRow) (k : String),
        countKey TRow.date tbl k ≤ 1 → (∃ r ∈ rows, TRow.date r = k) →
        ∃ v, lastWith TRow.date rows k = some v ∧
          ((get_tvn.insert_data get_tvn.mergeExec tbl rows).1).filter
            (fun t => TRow.date t = k) = [v]) := by
  refine ⟨?_, ?_, ?_, ?_⟩
  · intro now tbl data cs k h huniq
    rw [main.insert_data_merge_ok now data cs tbl h]
    exact @countKey_applyBatch_le_one HCanon HRow Value _ HRow.id HCanon.id
      (mkHRow now) k cs tbl (fun _ => rfl) huniq
  · intro now tbl data cs k h huniq hex
    rw [main.insert_data_merge_ok now data cs tbl h]
    exact @filter_applyBatch_eq HCanon HRow Value _ HRow.id HCanon.id
      (mkHRow now) k cs tbl (fun _ => rfl) huniq hex
  · intro tbl rows k huniq
    rw [get_tvn.insert_dataT_merge_ok rows tbl]
    exact @countKey_applyBatch_le_one TRow TRow String _ TRow.date TRow.date
      (fun r => r) k rows tbl (fun _ => rfl) huniq
  · intro tbl rows k huniq hex
    rw [get_tvn.insert_dataT_merge_ok rows tbl]
    exact @filter_applyBatch_eq TRow TRow String _ TRow.date TRow.date
      (fun r => r) k rows tbl (fun _ => rfl) huniq hex

/-- C4 (witness): two batch rows sharing key `"H100"` (and two daily-totals
rows sharing date `"2024-06-01"`) leave exactly one destination row each,
valued from the respective last row. -/
theorem C4_key_uniqueness_witness :
    main.normalizeBatch [sampleGood, sampleGoodUpd] = .ok [sampleCanon, sampleCanonUpd] ∧
    countKey HRow.id ([] : List HRow) (.vstr "H100") ≤ 1 ∧
    (∃ c ∈ [sampleCanon, sampleCanonUpd], HCanon.id c = .vstr "H100") ∧
    (∃ v, lastWith HCanon.id [sampleCanon, sampleCanonUpd] (.vstr "H100") = some v ∧
      ((main.insert_data (main.mergeExec 7) [] [sampleGood, sampleGoodUpd]).2.1).filter
        (fun t => HRow.id t = .vstr "H100") = [mkHRow 7 v]) ∧
    (∃ v, lastWith TRow.date [sampleT1, sampleT2] "2024-06-01" = some v ∧
      ((get_tvn.insert_data get_tvn.mergeExec [sampleTOther]
          [sampleT1, sampleT2]).1).filter
        (fun t => TRow.date t = "2024-06-01") = [v]) :=
  ⟨by decide, by decide, by decide,
   C4_key_uniqueness.2.1 7 [] [sampleGood, sampleGoodUpd]
     [sampleCanon, sampleCanonUpd] (.vstr "H100") (by decide) (by decide) (by decide),
   C4_key_uniqueness.2.2.2 [sampleTOther] [sampleT1, sampleT2] "2024-06-01"
     (by decide) (by decide)⟩

/-- C5: a sync never removes destination rows.  Every stored row whose key
does not occur among the batch's rows is still present, unchanged, after a
successful `insert_data`; and every stored row's key is still present
afterwards (rows with matching keys are only overwritten, never deleted). -/
theorem C5_additive_frame :
    (∀ (now : Nat) (tbl : List HRow) (data : List RawRecord) (cs : List HCanon),
        main.normalizeBatch data = .ok cs →
        ∀ t ∈ tbl, ((∀ c ∈ cs, ¬HCanon.id c = HRow.id t) →
            t ∈ (main.insert_data (main.mergeExec now) tbl data).2.1) ∧
          ∃ t' ∈ (main.insert_data (main.mergeExec now) tbl data).2.1,
            HRow.id t' = HRow.id t) ∧
    (∀ (tbl rows : List TRow), ∀ t ∈ tbl,
        ((∀ r ∈ rows, ¬TRow.date r = TRow.date t) →
          t ∈ (get_tvn.insert_data get_tvn.mergeExec tbl rows).1) ∧
        ∃ t' ∈ (get_tvn.insert_data get_tvn.mergeExec tbl rows).1,
          TRow.date t' = TRow.date t) := by
  constructor
  · intro now tbl data cs h t ht
    rw [main.insert_data_merge_ok now data cs tbl h]
    exact ⟨fun huntouched =>
      @mem_applyBatch_frame HCanon HRow Value _ HRow.id HCanon.id (mkHRow now)
        t cs tbl (fun _ => rfl) ht huntouched,
      @applyBatch_key_preserved HCanon HRow Value _ HRow.id HCanon.id (mkHRow now)
        t cs tbl (fun _ => rfl) ht⟩
  · intro tbl rows t ht
    rw [get_tvn.insert_dataT_merge_ok rows tbl]
    exact ⟨fun huntouched =>
      @mem_applyBatch_frame TRow TRow String _ TRow.date TRow.date (fun r => r)
        t rows tbl (fun _ => rfl) ht huntouched,
      @applyBatch_key_preserved TRow TRow String _ TRow.date TRow.date (fun r => r)
        t rows tbl (fun _ => rfl) ht⟩

/-- C5 (witness): a stored row with key `"H999"`, absent from the batch,
survives a concrete sync unchanged. -/
theorem C5_additive_frame_witness :
    main.normalizeBatch [sampleGood] = .ok [sampleCanon] ∧
    sampleOtherRow ∈ [sampleOtherRow] ∧
    (∀ c ∈ [sampleCanon], ¬HCanon.id c = HRow.id sampleOtherRow) ∧
    sampleOtherRow ∈
      (main.insert_data (main.mergeExec 9) [sampleOtherRow] [sampleGood]).2.1 ∧
    sampleTOther ∈
      (get_tvn.insert_data get_tvn.mergeExec [sampleTOther] [sampleT1]).1 :=
  ⟨by decide, by decide, by decide,
   ((C5_additive_frame.1 9 [sampleOtherRow] [sampleGood] [sampleCanon] (by decide)
      sampleOtherRow (by decide)).1 (by decide)),
   ((C5_additive_frame.2 [sampleTOther] [sampleT1] sampleTOther (by decide)).1
      (by decide))⟩

/-! ### Orchestrator shape lemmas -/

namespace main

theorem sync_data_shape (env : HarvestEnv) (sd ed : Option String) :
    ∃ nc, (sync_data env sd ed).notifs = [nc] ∧
      nc.start_date = sd.getD env.today ∧ nc.end_date = ed.getD env.today ∧
      (∀ p, sync_attempt env = .ok p → nc.success = true ∧
        nc.records_processed = p.2 ∧ nc.error_message = none) ∧
      (∀ e, sync_attempt env = .error e → nc.success = false ∧
        nc.error_message = some e) ∧
      (sync_data env sd ed).raised = none := by
  unfold sync_data sync_attempt
  cases env.fetch with
  | error e =>
      dsimp only
      exact ⟨_, rfl, rfl, rfl, fun p hp => Except.noConfusion hp,
        fun e' he => ⟨rfl, congrArg some (Except.error.inj he)⟩, rfl⟩
  | ok data =>
      dsimp only
      cases env.connect with
      | error e =>
          dsimp only
          exact ⟨_, rfl, rfl, rfl, fun p hp => Except.noConfusion hp,
            fun e' he => ⟨rfl, congrArg some (Except.error.inj he)⟩, rfl⟩
      | ok u =>
          dsimp only
          rcases hi : insert_data env.exec env.db data with ⟨tr, db', raised⟩
          cases raised with
          | some e =>
              dsimp only
              exact ⟨_, rfl, rfl, rfl, fun p hp => Except.noConfusion hp,
                fun e' he => ⟨rfl, congrArg some (Except.error.inj he)⟩, rfl⟩
          | none =>
              dsimp only
              exact ⟨_, rfl, rfl, rfl,
                fun p hp => ⟨rfl, congrArg Prod.snd (Except.ok.inj hp), rfl⟩,
                fun e' he => Except.noConfusion he, rfl⟩

end main

namespace get_tvn

theorem sync_dataT_shape (env : TvnEnv) (sd ed : Option String) :
    (sync_data env sd ed).notifs = [] ∧ (sync_data env sd ed).raised = none := by
  unfold sync_data
  cases env.response with
  | error e => exact ⟨rfl, rfl⟩
  | ok resp =>
      dsimp only
      cases get_supabase_data resp with
      | error e => exact ⟨rfl, rfl⟩
      | ok rows =>
          dsimp only
          cases env.connect with
          | error e => exact ⟨rfl, rfl⟩
          | ok u =>
              dsimp only
              rcases hi : insert_data env.exec env.db rows with ⟨db', raised⟩
              cases raised with
              | some e => exact ⟨rfl, rfl⟩
              | none => exact ⟨rfl, rfl⟩

end get_tvn

/-! ### DataFrame column lemmas -/

theorem cols_of_row :
    ∀ (r : List (String × Value)) (cols : List String) (x : String),
      x ∈ r.foldl (fun cols p => if cols.contains p.1 then cols else cols ++ [p.1])
        cols →
      x ∈ cols ∨ ∃ p ∈ r, p.1 = x
  | [], _, _, h => Or.inl h
  | p :: r, cols, x, h => by
      rcases cols_of_row r _ x h with hc | ⟨q, hq, hqx⟩
      · dsimp only at hc
        by_cases hp : cols.contains p.1 = true
        · rw [if_pos hp] at hc
          exact Or.inl hc
        · rw [if_neg hp] at hc
          rcases List.mem_append.mp hc with hl | hr
          · exact Or.inl hl
          · exact Or.inr ⟨p, List.mem_cons_self .., (List.mem_singleton.mp hr).symm⟩
      · exact Or.inr ⟨q, List.mem_cons_of_mem p hq, hqx⟩

theorem cols_of_rows :
    ∀ (rows : List (List (String × Value))) (cols : List String) (x : String),
      x ∈ rows.foldl (fun cols r =>
        r.foldl (fun cols p => if cols.contains p.1 then cols else cols ++ [p.1])
          cols) cols →
      x ∈ cols ∨ ∃ r ∈ rows, ∃ p ∈ r, p.1 = x
  | [], _, _, h => Or.inl h
  | r :: rows, cols, x, h => by
      rcases cols_of_rows rows _ x h with hc | ⟨r', hr', hp⟩
      · rcases cols_of_row r cols x hc with hl | ⟨p, hpr, hpx⟩
        · exact Or.inl hl
        · exact Or.inr ⟨r, List.mem_cons_self .., p, hpr, hpx⟩
      · exact Or.inr ⟨r', List.mem_cons_of_mem r hr', hp⟩

theorem lookupField_eq_none (r : List (String × Value)) (col : String) :
    lookupField r col = none ↔ ∀ p ∈ r, ¬(p.1 = col) := by
  unfold lookupField
  rw [Option.map_eq_none']
  rw [List.find?_eq_none]
  constructor
  · intro h p hp
    have := h p hp
    simpa using this
  · intro h p hp
    simpa using h p hp

/-! ### Remaining claims -/

/-- A fully-configured harvest environment whose run succeeds. -/
def sampleHarvestEnv : main.HarvestEnv :=
  { fetch := .ok [sampleGood], connect := .ok (), db := [],
    exec := main.mergeExec 3, today := "2024-06-02" }

/-- A harvest environment whose fetch stage fails. -/
def sampleFailEnv : main.HarvestEnv :=
  { fetch := .error "ConnectionError", connect := .ok (), db := [],
    exec := main.mergeExec 0, today := "2024-06-02" }

/-- A TVN environment whose run succeeds. -/
def sampleTvnEnv : get_tvn.TvnEnv :=
  { response := .ok [], connect := .ok (), db := [],
    exec := fun r w => .ok (get_tvn.mergeTvn w r), today := "2024-06-02" }

/-- C6 (counterexample): one complete run of the TVN orchestrator
(`get_tvn.sync_data`) performs zero notification calls, not exactly one. -/
theorem C6_counterexample :
    (get_tvn.sync_data sampleTvnEnv none none).notifs.length = 0 ∧ (0 : Nat) ≠ 1 :=
  ⟨rfl, by decide⟩

/-- C6 (amended): the harvest orchestrator hands the outcome to
`send_email_notification` exactly once per run — on success with the window
and the number of rows processed, on failure with the window and the error
text; the daily-totals orchestrator contains no notification call at all. -/
theorem C6_notify_exactly_once_amended :
    (∀ (env : main.HarvestEnv) (sd ed : Option String),
        ∃ nc, (main.sync_data env sd ed).notifs = [nc] ∧
          nc.start_date = sd.getD env.today ∧ nc.end_date = ed.getD env.today ∧
          (∀ p, main.sync_attempt env = .ok p → nc.success = true ∧
            nc.records_processed = p.2 ∧ nc.error_message = none) ∧
          (∀ e, main.sync_attempt env = .error e → nc.success = false ∧
            nc.error_message = some e)) ∧
    (∀ (env : get_tvn.TvnEnv) (sd ed : Option String),
        (get_tvn.sync_data env sd ed).notifs = []) := by
  constructor
  · intro env sd ed
    rcases main.sync_data_shape env sd ed with ⟨nc, h1, h2, h3, h4, h5, _⟩
    exact ⟨nc, h1, h2, h3, h4, h5⟩
  · intro env sd ed
    exact (get_tvn.sync_dataT_shape env sd ed).1

/-- C6 (witness): the amended statement evaluated on concrete runs. -/
theorem C6_notify_exactly_once_amended_witness :
    (main.sync_data sampleHarvestEnv none none).notifs.length = 1 ∧
    (get_tvn.sync_data sampleTvnEnv none none).notifs = [] := by
  constructor
  · rcases C6_notify_exactly_once_amended.1 sampleHarvestEnv none none with
      ⟨nc, hnc, _⟩
    rw [hnc]
    rfl
  · exact C6_notify_exactly_once_amended.2 sampleTvnEnv none none

/-- C7 (counterexample): a non-empty API response in which every expected
harvest field is absent from every row.  `fetch_api_data` still returns the
rows (it performs no schema validation); no schema error is signalled at
the fetch stage. -/
theorem C7_counterexample :
    main.fetch_api_data [[("foo", Value.vnum 1)]] = .ok [[("foo", Value.vnum 1)]] ∧
    [[("foo", Value.vnum 1)]] ≠ ([] : List RawRecord) ∧
    (∀ f ∈ main.required_fields, lookupField [("foo", Value.vnum 1)] f = none) :=
  ⟨rfl, by decide, by decide⟩

/-- C7 (amended): the Supabase fetch (`get_supabase_data`) does signal an
error naming the missing columns whenever a required column is absent from
every row of a non-empty response; the API fetch (`fetch_api_data`)
performs no schema check at all and returns the body unchanged, leaving
missing fields to surface only later, during per-record normalization
inside `insert_data`. -/
theorem C7_schema_check_amended :
    (∀ (resp : List RawRecord) (col : String), resp ≠ [] →
        col ∈ get_tvn.required_columns → (∀ r ∈ resp, lookupField r col = none) →
        ∃ ms, get_tvn.get_supabase_data resp = .error (.missingCols ms) ∧
          col ∈ ms) ∧
    (∀ body, main.fetch_api_data body = .ok body) := by
  constructor
  · intro resp col hne hreq habs
    have hnotmem : col ∉ get_tvn.dfColumns resp := by
      intro hmem
      rcases cols_of_rows resp [] col hmem with hfalse | ⟨r, hr, p, hp, hpx⟩
      · simp at hfalse
      · exact (lookupField_eq_none r col).mp (habs r hr) p hp hpx
    have hcol : col ∈ get_tvn.required_columns.filter
        (fun c => !(get_tvn.dfColumns resp).contains c) := by
      apply List.mem_filter.mpr
      refine ⟨hreq, ?_⟩
      simp only [Bool.not_eq_true']
      simpa using hnotmem
    refine ⟨get_tvn.required_columns.filter
      (fun c => !(get_tvn.dfColumns resp).contains c), ?_, hcol⟩
    unfold get_tvn.get_supabase_data
    rw [if_neg (by simpa [List.isEmpty_iff] using hne),
      if_neg (by
        intro hempty
        rw [List.isEmpty_iff] at hempty
        rw [hempty] at hcol
        simp at hcol)]
  · intro body
    rfl

/-- C7 (witness): a one-row Supabase response carrying only `date` makes
the fetch fail, while the API fetch passes an empty body through. -/
theorem C7_schema_check_amended_witness :
    (get_tvn.get_supabase_data [[("date", Value.vstr "2024-06-01")]]).isOk = false ∧
    main.fetch_api_data [] = .ok [] := by
  constructor
  · rcases C7_schema_check_amended.1 [[("date", Value.vstr "2024-06-01")]]
      "kilos_harvested" (by decide) (by decide) (by decide) with ⟨ms, hms, _⟩
    rw [hms]
    rfl
  · exact C7_schema_check_amended.2 []

/-- C8: normalization round-trip.  A raw record normalizes successfully
exactly when its three date/time fields are strings matching the expected
formats (`%Y-%m-%d %H:%M:%S` for `harvest_date`, `%H:%M` for the times) and
the nine remaining required fields are present; a record violating this
yields an error.  A successful normalization produces a canonical row whose
`harvest_date` is the constructor-validated `strftime` rendering (year,
month 1–12, day within the month, hour ≤ 23, minutes/seconds ≤ 59), whose
`start_time`/`end_time` are zero-padded `HH:MM:00` with hour ≤ 23 and
minute ≤ 59, and whose other nine fields are the raw values unchanged. -/
theorem C8_normalize_roundtrip (r : RawRecord) :
    ((∃ c, main.normalizeRecord r = .ok c) ↔ main.validRecord r = true) ∧
    (main.validRecord r = false → ∃ e, main.normalizeRecord r = .error e) ∧
    (∀ c, main.normalizeRecord r = .ok c →
      ∃ s1 t1 s2 t2 s3 t3,
        lookupField r "harvest_date" = some (.vstr s1) ∧
        strptimeDateTime s1 = some t1 ∧
        lookupField r "start_time" = some (.vstr s2) ∧ strptimeHM s2 = some t2 ∧
        lookupField r "end_time" = some (.vstr s3) ∧ strptimeHM s3 = some t3 ∧
        c.harvest_date =
          fmtDateTime t1.1 t1.2.1 t1.2.2.1 t1.2.2.2.1 t1.2.2.2.2.1 t1.2.2.2.2.2 ∧
        dtValid t1.1 t1.2.1 t1.2.2.1 t1.2.2.2.1 t1.2.2.2.2.1 t1.2.2.2.2.2 = true ∧
        c.start_time = fmtHMS t2.1 t2.2 ∧ t2.1 ≤ 23 ∧ t2.2 ≤ 59 ∧
        c.end_time = fmtHMS t3.1 t3.2 ∧ t3.1 ≤ 23 ∧ t3.2 ≤ 59 ∧
        lookupField r "id" = some c.id ∧ lookupField r "farm" = some c.farm ∧
        lookupField r "plot" = some c.plot ∧
        lookupField r "produce" = some c.produce ∧
        lookupField r "worker" = some c.worker ∧
        lookupField r "unit" = some c.unit ∧
        lookupField r "duration" = some c.duration ∧
        lookupField r "containers" = some c.containers ∧
        lookupField r "kgs_harvested" = some c.kgs_harvested) := by
  refine ⟨?_, ?_, fun c h => main.normalizeRecord_ok_shape r c h⟩
  · rw [← main.normalizeRecord_isOk_eq_validRecord]
    exact (except_isOk_iff _).symm
  · intro hf
    cases hx : main.normalizeRecord r with
    | error e => exact ⟨e, rfl⟩
    | ok c =>
        have hv : main.validRecord r = true := by
          rw [← main.normalizeRecord_isOk_eq_validRecord, hx]
          rfl
        rw [hv] at hf
        exact absurd hf (by simp)

/-- C8 (witness): the round-trip on the concrete valid record. -/
theorem C8_normalize_roundtrip_witness :
    main.validRecord sampleGood = true ∧
    main.normalizeRecord sampleGood = .ok sampleCanon ∧
    main.validRecord sampleBad = false ∧
    main.normalizeRecord sampleBad = .error (.parseError "harvest_date") :=
  ⟨(C8_normalize_roundtrip sampleGood).1.mp ⟨sampleCanon, by decide⟩,
   by decide, by decide, by decide⟩

/-- C9: `send_email_notification` returns without attempting delivery
whenever any of the sender, password, or recipient configuration values is
unset — for any SMTP behaviour and any notification content, success and
failure outcomes alike. -/
theorem C9_email_config_guard (cfg : EmailCfg) (smtp : Except String Unit)
    (call : NotifCall)
    (h : cfg.sender = none ∨ cfg.password = none ∨ cfg.recipient = none) :
    main.send_email_notification cfg smtp call = .skipped := by
  rcases h with h | h | h <;> simp [main.send_email_notification, pyTruthy, h]

/-- C9 (witness): a success call and a failure call are both skipped with
the sender unset. -/
theorem C9_email_config_guard_witness :
    main.send_email_notification ⟨none, some "pw", some "rcpt"⟩ (.ok ())
      { success := true, start_date := "2024-06-01", end_date := "2024-06-01",
        records_processed := 4, error_message := none } = .skipped ∧
    main.send_email_notification ⟨none, some "pw", some "rcpt"⟩ (.ok ())
      { success := false, start_date := "2024-06-01", end_date := "2024-06-01",
        records_processed := 0, error_message := some "ConnectionError" } =
      .skipped :=
  ⟨C9_email_config_guard ⟨none, some "pw", some "rcpt"⟩ (.ok ()) _ (Or.inl rfl),
   C9_email_config_guard ⟨none, some "pw", some "rcpt"⟩ (.ok ()) _ (Or.inl rfl)⟩

/-- C10: neither orchestrator ever propagates an exception to its caller:
whatever the fetch, connection, or insert stages do, `sync_data` returns
normally (`raised = none`), converting any stage failure into the failure
notification (harvest variant) and log entries only — so the caller sees
the same normal return for failed and successful runs. -/
theorem C10_sync_never_raises :
    (∀ (env : main.HarvestEnv) (sd ed : Option String),
        (main.sync_data env sd ed).raised = none) ∧
    (∀ (env : main.HarvestEnv) (sd ed : Option String) (e : String),
        main.sync_attempt env = .error e →
        ∃ nc, (main.sync_data env sd ed).notifs = [nc] ∧ nc.success = false ∧
          nc.error_message = some e) ∧
    (∀ (env : get_tvn.TvnEnv) (sd ed : Option String),
        (get_tvn.sync_data env sd ed).raised = none) := by
  refine ⟨?_, ?_, ?_⟩
  · intro env sd ed
    rcases main.sync_data_shape env sd ed with ⟨nc, _, _, _, _, _, hr⟩
    exact hr
  · intro env sd ed e he
    rcases main.sync_data_shape env sd ed with ⟨nc, h1, _, _, _, h5, _⟩
    rcases h5 e he with ⟨hs, hm⟩
    exact ⟨nc, h1, hs, hm⟩
  · intro env sd ed
    exact (get_tvn.sync_dataT_shape env sd ed).2

/-- C10 (witness): a run whose fetch stage fails still returns normally,
with a single failure notification carrying the error text. -/
theorem C10_sync_never_raises_witness :
    (main.sync_data sampleFailEnv none none).raised = none ∧
    (get_tvn.sync_data sampleTvnEnv none none).raised = none ∧
    (main.sync_data sampleFailEnv none none).notifs.map NotifCall.success =
      [false] := by
  refine ⟨C10_sync_never_raises.1 sampleFailEnv none none,
    C10_sync_never_raises.2.2 sampleTvnEnv none none, ?_⟩
  rcases C10_sync_never_raises.2.1 sampleFailEnv none none "ConnectionError" rfl
    with ⟨nc, hnc, hs, _⟩
  rw [hnc, List.map_cons, List.map_nil, hs]
